import Mathlib

/-!
Verification of the `ai-service` matching engine (`app/matcher.py`) of the
talent-hub repository: a shallow embedding of the match scoring and
result-cache engine, together with proofs and refutations of the
specification claims about it.

Modelling conventions:

* Python floats are modelled as exact rationals (`ℚ`).  The two places where
  genuine floating-point values are produced — the float32 cosine similarity
  of `cosine_similarity` and the wall-clock half-life decay of
  `_freshness_score` — are abstracted as explicit function parameters
  (`cos`, `fresh`) of the orchestrator: the first stands for the value
  `dot(v1,v2)/(‖v1‖·‖v2‖)` computed by numpy, the second for the value of
  `_freshness_score` at the current wall-clock instant.  Dimension
  validation, the zero-norm guard and the `np.clip` to [0,1] are modelled
  exactly.
* Environment-derived module constants (`EMBEDDING_DIMENSION`,
  `MATCH_CACHE_TTL_SECONDS`, `MATCH_CACHE_MAX_ENTRIES`, `DEFAULT_MIN_SCORE`,
  `DEFAULT_MAX_RESULTS`, `DEFAULT_WEIGHTS`) are gathered in a
  `MatcherConfig` record, as §6 of the specification prescribes
  ("tunable defaults ... are passed in as already-resolved configuration
  values"); `defaultMatcherConfig` records the values of the source tree.
* Python `TypedDict`s with optional keys are modelled as structures with
  `Option` fields; absent key = `none`.  Python dict falsiness (`{}` is
  falsy) is modelled by explicit emptiness tests where the source relies
  on it.
* The global `_cache : OrderedDict` is modelled as an explicit association
  list threaded through the operations, ordered from least recently used
  (front) to most recently used (back), exactly the order `OrderedDict`
  maintains under `move_to_end`/`popitem(last=False)`.
* `hashlib.sha1` digests used for cache keys are modelled as injective
  serialisations into `List Char`; the surrounding string assembly of
  `_build_cache_key` (the `"|"` and `"::"` joins of `job_id`, vector digest
  and metadata digest) is modelled verbatim.
* `compute_matches` returns its outcome (`Except`) together with the final
  cache state and a flag recording whether the returned list was served
  from the cache.  The asyncio lock makes every cache access atomic; the
  sequential model corresponds to the lock-serialised executions.
-/

/-! ## Data model (`matcher.py` lines 54-109) -/

set_option maxRecDepth 8000

unseal Rat.add Rat.mul Rat.inv Rat.sub

deriving instance DecidableEq for Except

abbrev Vec := List ℚ

structure GraduateMetadata where
  skills : Option (List String)
  education : Option String
  experience_years : Option ℚ
  latest_experience_year : Option ℤ
deriving DecidableEq

structure JobMetadata where
  skills : Option (List String)
  education : Option String
  experience_years : Option ℚ
  updated_at : Option String
deriving DecidableEq

structure JobEmbeddingPayload where
  id : Option String
  embedding : Option Vec
  metadata : Option JobMetadata
deriving DecidableEq

/-- A partial weights override as supplied in `MatchOptions` (Python
`MatchWeights`, all keys optional). -/
structure MatchWeights where
  embedding : Option ℚ
  skills : Option ℚ
  education : Option ℚ
  experience : Option ℚ
  freshness : Option ℚ
deriving DecidableEq

structure MatchOptions where
  min_score : Option ℚ
  limit : Option ℤ
  weights : Option MatchWeights
deriving DecidableEq

/-- A complete weight table over the five factors (the shape of Python's
`DEFAULT_WEIGHTS` dict and of the output of `_normalise_weights`). -/
structure FactorWeights where
  embedding : ℚ
  skills : ℚ
  education : ℚ
  experience : ℚ
  freshness : ℚ
deriving DecidableEq

def FactorWeights.sum (w : FactorWeights) : ℚ :=
  w.embedding + w.skills + w.education + w.experience + w.freshness

structure MatchFactors where
  embedding : ℚ
  skills : ℚ
  education : ℚ
  experience : ℚ
  freshness : ℚ
deriving DecidableEq

structure MatchResult where
  id : String
  score : ℚ
  factors : MatchFactors
deriving DecidableEq

structure CacheEntry where
  value : List MatchResult
  expires_at : ℚ
deriving DecidableEq

/-- Cache keys are the strings produced by `_build_cache_key`, modelled as
character lists. -/
abbrev CacheKey := List Char

/-- The module-level `_cache : OrderedDict[str, _CacheEntry]`, least recently
used entry first. -/
abbrev MatchCache := List (CacheKey × CacheEntry)

/-- Module-level configuration of `matcher.py` (constants read from the
environment at import time, plus the embedding dimension shared with
`embeddings.py`). -/
structure MatcherConfig where
  embedding_dimension : ℕ
  cache_ttl : ℚ
  cache_max_entries : ℕ
  default_min_score : ℚ
  default_max_results : ℤ
  default_weights : FactorWeights
deriving DecidableEq

/-- The configuration values of the source tree: `EMBEDDING_DIMENSION = 3072`,
TTL 300 s, 1024 entries, min score 0.3, limit 50 and the default weight split
0.6/0.2/0.1/0.05/0.05. -/
def defaultMatcherConfig : MatcherConfig :=
  ⟨3072, 300, 1024, 3/10, 50, ⟨3/5, 1/5, 1/10, 1/20, 1/20⟩⟩

/-! ## Python string primitives

`str.strip()` and `str.lower()` as used by the factor scorers, modelled on
the character list underlying the string (ASCII view of Python's semantics).
-/

/-- Python `str.strip()`: remove leading and trailing whitespace. -/
def pyStrip (s : String) : String :=
  ⟨((s.data.dropWhile Char.isWhitespace).reverse.dropWhile Char.isWhitespace).reverse⟩

/-- Python `str.lower()`. -/
def pyLower (s : String) : String :=
  ⟨s.data.map Char.toLower⟩

/-! ## Vector validation (`_validate_vector`, lines 112-121)

The `ndim` check is vacuous in the model (a `Vec` is always one-dimensional),
so only the dimension check remains.
-/

def _validate_vector (cfg : MatcherConfig) (v : Vec) : Except String Unit :=
  if v.length = cfg.embedding_dimension then .ok () else
    .error ("Embedding dimension mismatch")

/-! ## Weight normalisation (`_normalise_weights`, lines 124-129) -/

/-- The dict comprehension `{key: max(value, 0.0) for ...}`. -/
def _clamp_weights (w : FactorWeights) : FactorWeights :=
  ⟨max w.embedding 0, max w.skills 0, max w.education 0,
   max w.experience 0, max w.freshness 0⟩

def _normalise_weights (w : FactorWeights) : FactorWeights :=
  let p := _clamp_weights w
  let total := p.sum
  if total = 0 then ⟨1, 0, 0, 0, 0⟩
  else ⟨p.embedding / total, p.skills / total, p.education / total,
        p.experience / total, p.freshness / total⟩

/-! ## Factor scorers (`_skills_similarity` etc., lines 203-268) -/

/-- The set comprehension `{skill.strip().lower() for skill in l if skill}`:
drop falsy (empty) strings, then strip and lowercase the survivors into a
set.  Note that a whitespace-only skill passes the `if skill` filter and is
stripped to the empty string inside the set. -/
def _skill_set (l : List String) : Finset String :=
  ((l.filter (fun s => s ≠ "")).map (fun s => pyLower (pyStrip s))).toFinset

def _skills_similarity (graduate job : Option (List String)) : ℚ :=
  match graduate with
  | none => 0
  | some g =>
    if g = [] then 0
    else
      match job with
      | none => 1/2
      | some j =>
        if j = [] then 1/2
        else
          let grad_set := _skill_set g
          let job_set := _skill_set j
          if grad_set = ∅ ∨ job_set = ∅ then 0
          else ((grad_set ∩ job_set).card : ℚ) / ((grad_set ∪ job_set).card : ℚ)

/-- Python `in` on strings (substring containment) on the character lists. -/
def pySubstring (a b : String) : Prop := a.data.IsInfix b.data

instance : DecidablePred fun p : String × String => pySubstring p.1 p.2 :=
  fun p => List.decidableInfix p.1.data p.2.data

instance (a b : String) : Decidable (pySubstring a b) :=
  List.decidableInfix a.data b.data

def _education_similarity (graduate job : Option String) : ℚ :=
  match job with
  | none => 1/2
  | some j =>
    if j = "" then 1/2
    else
      match graduate with
      | none => 0
      | some g =>
        if g = "" then 0
        else
          let grad_norm := pyLower (pyStrip g)
          let job_norm := pyLower (pyStrip j)
          if grad_norm = "" ∨ job_norm = "" then 0
          else if grad_norm = job_norm then 1
          else if pySubstring grad_norm job_norm ∨ pySubstring job_norm grad_norm then 7/10
          else 0

def _experience_similarity (graduate_years job_years : Option ℚ) : ℚ :=
  match job_years with
  | none => 3/5
  | some jy =>
    match graduate_years with
    | none => 0
    | some gy =>
      let diff := |gy - jy|
      if jy ≤ diff then 0
      else max 0 (1 - diff / max jy 1)

/-! `_freshness_score` (lines 252-268) depends on `datetime.now()` and a
transcendental half-life decay; in the model it is the abstract parameter
`fresh : Option String → ℚ` of the orchestrator (the function's value at the
current wall-clock instant, applied to the job's `updated_at` field). -/

/-! ## Rounding

Python's builtin `round(x, 4)` rounds to the nearest multiple of `1e-4`,
ties to even (modelled on the exact rational value). -/

def roundHalfEven (q : ℚ) : ℤ :=
  let f := q.floor
  let r := q - f
  if r < 1/2 then f
  else if 1/2 < r then f + 1
  else if f % 2 = 0 then f else f + 1

def round4 (q : ℚ) : ℚ := mkRat (roundHalfEven (q * 10000)) 10000

/-! ## Cosine similarity (`cosine_similarity`, lines 192-200)

Both vectors are validated; if either has zero Euclidean norm the result is
0.0, otherwise it is the floating-point value abstracted as `cos`.  A norm
is zero exactly when the sum of squares is zero. -/

def sumSq (v : Vec) : ℚ := (v.map (fun q => q * q)).sum

/-- The value computed by `cosine_similarity` after validation: 0.0 when
either vector has zero Euclidean norm (equivalently, zero sum of squares),
otherwise the abstracted floating-point quotient `cos vec1 vec2`. -/
def _cosine_value (cos : Vec → Vec → ℚ) (vec1 vec2 : Vec) : ℚ :=
  if sumSq vec1 = 0 ∨ sumSq vec2 = 0 then 0 else cos vec1 vec2

def cosine_similarity (cfg : MatcherConfig) (cos : Vec → Vec → ℚ)
    (vec1 vec2 : Vec) : Except String ℚ :=
  match _validate_vector cfg vec1 with
  | .error e => .error e
  | .ok _ =>
    match _validate_vector cfg vec2 with
    | .error e => .error e
    | .ok _ => .ok (_cosine_value cos vec1 vec2)

-- sanity checks on the scorers
example : _skills_similarity (some ["React", "TypeScript"]) (some ["react", "typescript"]) = 1 := by
  decide

example : _skills_similarity (some ["a"]) (some ["b", "c"]) = 0 := by
  decide

example : _skills_similarity (some ["x"]) none = 1/2 := by decide

example : _education_similarity (some "BSc Computer Science") none = 1/2 := by
  decide

example : _experience_similarity (some 2) (some 3) = 2/3 := by decide

example : round4 (1/3) = 3333/10000 := by decide

example : _normalise_weights ⟨3/5, 1/5, 1/10, 1/20, 1/20⟩ = ⟨3/5, 1/5, 1/10, 1/20, 1/20⟩ := by
  decide

/-! ## Claim C1 — the skills scorer formula

The claim describes `_skills_similarity` as: 0.0 when the set `G` is empty,
else 0.5 when the set `J` is empty, else the Jaccard index (0.0 for an empty
union).  `skills_similarity_claimed` below renders that wording; the code
however tests the emptiness of the *lists*, not of the derived sets, before
building the sets, and returns 0.0 (not 0.5) when the job list is nonempty
but its derived set is empty. -/

/-- The C1 claim's formula, with `G`, `J` the lowercase-trimmed,
empty-string-filtered sets built from the graduate/job skill lists: 0.0 when
`G` is empty; else 0.5 when `J` is empty; else the Jaccard index
`|G∩J| / |G∪J|`, with 0.0 when the union is empty. -/
def skills_similarity_claimed (graduate job : Option (List String)) : ℚ :=
  let G := _skill_set (graduate.getD [])
  let J := _skill_set (job.getD [])
  if G = ∅ then 0
  else if J = ∅ then 1/2
  else if G ∪ J = ∅ then 0
  else ((G ∩ J).card : ℚ) / ((G ∪ J).card : ℚ)

/-- Claim C1, counterexample: for graduate skills `["a"]` and job skills
`[""]` the claim's formula gives 0.5 (the derived job set is empty), but the
code reaches the `if not grad_set or not job_set` branch and returns 0.0,
because the *list* `[""]` is nonempty. -/
theorem c1_counterexample :
    _skills_similarity (some ["a"]) (some [""]) = 0 ∧
    skills_similarity_claimed (some ["a"]) (some [""]) = 1/2 ∧
    _skills_similarity (some ["a"]) (some [""]) ≠
      skills_similarity_claimed (some ["a"]) (some [""]) := by
  refine ⟨by decide, by decide, by decide⟩

/-- The C1 claim amended to the code's branch order: the emptiness guards
returning 0.0/0.5 test the raw graduate/job *lists* (absent counts as
empty), and an additional guard returns 0.0 whenever either derived set is
empty; only then is the Jaccard index of the derived sets taken. -/
def skills_similarity_amended (graduate job : Option (List String)) : ℚ :=
  if graduate.getD [] = [] then 0
  else if job.getD [] = [] then 1/2
  else
    let G := _skill_set (graduate.getD [])
    let J := _skill_set (job.getD [])
    if G = ∅ ∨ J = ∅ then 0
    else ((G ∩ J).card : ℚ) / ((G ∪ J).card : ℚ)

/-- Claim C1 (amended): for every graduate-skill list and job-skill list the
skills scorer returns exactly 0.0 when the graduate list is absent or empty;
else 0.5 when the job list is absent or empty; else 0.0 when either of the
lowercase-trimmed, empty-string-filtered skill sets is empty; else their
Jaccard index. -/
theorem c1_skills_similarity_amended (graduate job : Option (List String)) :
    _skills_similarity graduate job = skills_similarity_amended graduate job := by
  unfold _skills_similarity skills_similarity_amended
  match graduate with
  | none => simp
  | some g =>
    match job with
    | none => simp
    | some j => simp

/-! ## Claim C5 — normalised weights -/

/-- Claim C5: for every filled weight table, the normalised weights are all
non-negative and sum to exactly 1; and when the clamped-to-≥0 values sum to
0 the output is the unit weight on the embedding factor. -/
theorem c5_normalise_weights (w : FactorWeights) :
    (0 ≤ (_normalise_weights w).embedding ∧
     0 ≤ (_normalise_weights w).skills ∧
     0 ≤ (_normalise_weights w).education ∧
     0 ≤ (_normalise_weights w).experience ∧
     0 ≤ (_normalise_weights w).freshness ∧
     (_normalise_weights w).sum = 1) ∧
    ((_clamp_weights w).sum = 0 →
      _normalise_weights w = ⟨1, 0, 0, 0, 0⟩) := by
  unfold _normalise_weights
  set p := _clamp_weights w with hp
  have hpe : 0 ≤ p.embedding := by rw [hp]; exact le_max_right _ _
  have hps : 0 ≤ p.skills := by rw [hp]; exact le_max_right _ _
  have hpd : 0 ≤ p.education := by rw [hp]; exact le_max_right _ _
  have hpx : 0 ≤ p.experience := by rw [hp]; exact le_max_right _ _
  have hpf : 0 ≤ p.freshness := by rw [hp]; exact le_max_right _ _
  by_cases h : p.sum = 0
  · simp only [h, if_pos rfl]
    refine ⟨⟨by norm_num, by norm_num, by norm_num, by norm_num, by norm_num, ?_⟩, fun _ => rfl⟩
    unfold FactorWeights.sum
    norm_num
  · simp only [if_neg h]
    have htot : 0 < p.sum := by
      rcases lt_or_eq_of_le (by unfold FactorWeights.sum; positivity : (0:ℚ) ≤ p.sum) with h1 | h1
      · exact h1
      · exact absurd h1.symm h
    refine ⟨⟨div_nonneg hpe htot.le, div_nonneg hps htot.le, div_nonneg hpd htot.le,
      div_nonneg hpx htot.le, div_nonneg hpf htot.le, ?_⟩, fun hz => absurd hz h⟩
    show p.embedding / p.sum + p.skills / p.sum + p.education / p.sum +
      p.experience / p.sum + p.freshness / p.sum = 1
    rw [div_add_div_same, div_add_div_same, div_add_div_same, div_add_div_same]
    exact div_self h

/-- Witness for C5 at a concrete all-negative weight table: the clamped sum
is 0 and the fallback unit embedding weight is returned. -/
theorem c5_normalise_weights_witness :
    _normalise_weights ⟨-1, -2, 0, -3, 0⟩ = ⟨1, 0, 0, 0, 0⟩ :=
  (c5_normalise_weights ⟨-1, -2, 0, -3, 0⟩).2 (by decide)

/-! ## Result cache (`_get_from_cache` / `_set_cache`, lines 165-189)

The `OrderedDict` is an association list, least recently used first.  Dict
lookup, deletion and `move_to_end` are `lookupKey`, `eraseKey` and
`moveToEnd`; `popitem(last=False)` removes the front element. -/

def lookupKey (k : CacheKey) : MatchCache → Option CacheEntry
  | [] => none
  | (k', e) :: rest => if k' = k then some e else lookupKey k rest

def eraseKey (k : CacheKey) : MatchCache → MatchCache
  | [] => []
  | (k', e) :: rest => if k' = k then rest else (k', e) :: eraseKey k rest

/-- `OrderedDict.move_to_end(key)`: re-insert the entry for `key` at the
most-recently-used end (no-op if the key is absent, which the source never
relies on). -/
def moveToEnd (k : CacheKey) (c : MatchCache) : MatchCache :=
  match lookupKey k c with
  | none => c
  | some e => eraseKey k c ++ [(k, e)]

def _get_from_cache (key : CacheKey) (now : ℚ) (cache : MatchCache) :
    Option (List MatchResult) × MatchCache :=
  match lookupKey key cache with
  | none => (none, cache)
  | some entry =>
    if entry.expires_at < now then (none, eraseKey key cache)
    else (some entry.value, moveToEnd key cache)

/-- The `while len(_cache) > MATCH_CACHE_MAX_ENTRIES: _cache.popitem(last=False)`
loop: repeatedly drop the least recently used entry. -/
def evictOverCapacity (maxEntries : ℕ) : MatchCache → MatchCache
  | [] => []
  | e :: rest =>
    if maxEntries < (e :: rest).length then evictOverCapacity maxEntries rest
    else e :: rest

def _set_cache (cfg : MatcherConfig) (key : CacheKey) (value : List MatchResult)
    (now : ℚ) (cache : MatchCache) : MatchCache :=
  evictOverCapacity cfg.cache_max_entries
    (eraseKey key cache ++ [(key, ⟨value, now + cfg.cache_ttl⟩)])

/-! ## Claim C7 — capacity invariant -/

/-- One cache operation of a client: a read (`_get_from_cache`) or a write
(`_set_cache`), each at some instant. -/
inductive CacheOp where
  | get (key : CacheKey) (now : ℚ)
  | set (key : CacheKey) (value : List MatchResult) (now : ℚ)

def runCacheOp (cfg : MatcherConfig) (cache : MatchCache) : CacheOp → MatchCache
  | .get key now => (_get_from_cache key now cache).2
  | .set key value now => _set_cache cfg key value now cache

def runCacheOps (cfg : MatcherConfig) (cache : MatchCache) : List CacheOp → MatchCache
  | [] => cache
  | op :: ops => runCacheOps cfg (runCacheOp cfg cache op) ops

theorem length_evictOverCapacity_le (maxEntries : ℕ) (c : MatchCache) :
    (evictOverCapacity maxEntries c).length ≤ maxEntries := by
  induction c with
  | nil => simp [evictOverCapacity]
  | cons e rest ih =>
    unfold evictOverCapacity
    by_cases h : maxEntries < (e :: rest).length
    · rw [if_pos h]
      exact ih
    · rw [if_neg h]
      exact Nat.le_of_not_lt h

theorem length_set_cache_le (cfg : MatcherConfig) (key : CacheKey)
    (value : List MatchResult) (now : ℚ) (cache : MatchCache) :
    (_set_cache cfg key value now cache).length ≤ cfg.cache_max_entries :=
  length_evictOverCapacity_le _ _

theorem length_eraseKey_le (k : CacheKey) (c : MatchCache) :
    (eraseKey k c).length ≤ c.length := by
  induction c with
  | nil => simp [eraseKey]
  | cons hd rest ih =>
    rcases hd with ⟨k', v⟩
    unfold eraseKey
    by_cases h : k' = k
    · rw [if_pos h]
      simp
    · rw [if_neg h]
      simp only [List.length_cons]
      omega

theorem length_eraseKey_lt_of_mem (k : CacheKey) (c : MatchCache) (e : CacheEntry)
    (h : lookupKey k c = some e) : (eraseKey k c).length + 1 = c.length := by
  induction c with
  | nil => simp [lookupKey] at h
  | cons hd rest ih =>
    rcases hd with ⟨k', v⟩
    unfold lookupKey at h
    unfold eraseKey
    by_cases hk : k' = k
    · rw [if_pos hk]
      simp
    · rw [if_neg hk] at h ⊢
      simp only [List.length_cons]
      rw [ih h]

theorem length_get_from_cache_le (key : CacheKey) (now : ℚ) (cache : MatchCache) :
    (_get_from_cache key now cache).2.length ≤ cache.length := by
  unfold _get_from_cache
  split
  · exact le_refl _
  · next entry heq =>
    split
    · exact length_eraseKey_le key cache
    · show (moveToEnd key cache).length ≤ cache.length
      unfold moveToEnd
      rw [heq]
      simp only [List.length_append, List.length_cons, List.length_nil]
      have := length_eraseKey_lt_of_mem key cache entry heq
      omega

/-- Claim C7: starting from any cache state within the configured capacity
(in particular from the empty initial cache), after any sequence of cache
reads and writes the cache never holds more than
`MATCH_CACHE_MAX_ENTRIES` entries: writes evict down to capacity and reads
never grow the cache. -/
theorem c7_cache_capacity (cfg : MatcherConfig) (cache : MatchCache)
    (ops : List CacheOp) (h : cache.length ≤ cfg.cache_max_entries) :
    (runCacheOps cfg cache ops).length ≤ cfg.cache_max_entries := by
  induction ops generalizing cache with
  | nil => exact h
  | cons op ops ih =>
    unfold runCacheOps
    apply ih
    match op with
    | .get key now =>
      exact le_trans (length_get_from_cache_le key now cache) h
    | .set key value now =>
      exact length_set_cache_le cfg key value now cache

/-- Witness for C7: with capacity 1, two successive writes of distinct keys
leave at most one entry. -/
theorem c7_cache_capacity_witness :
    (runCacheOps ⟨4, 10, 1, 3/10, 50, ⟨1, 0, 0, 0, 0⟩⟩ []
      [.set [Char.ofNat 97] [] 0, .set [Char.ofNat 98] [] 1]).length ≤ 1 :=
  c7_cache_capacity ⟨4, 10, 1, 3/10, 50, ⟨1, 0, 0, 0, 0⟩⟩ [] _ (by decide)

theorem lookupKey_eraseKey_of_nodup (k : CacheKey) (c : MatchCache)
    (hnd : (c.map Prod.fst).Nodup) : lookupKey k (eraseKey k c) = none := by
  induction c with
  | nil => rfl
  | cons hd rest ih =>
    rcases hd with ⟨k', v⟩
    simp only [List.map_cons, List.nodup_cons] at hnd
    unfold eraseKey
    by_cases h : k' = k
    · rw [if_pos h]
      subst h
      -- k' no longer occurs in rest
      clear ih
      induction rest with
      | nil => rfl
      | cons hd2 rest2 ih2 =>
        rcases hd2 with ⟨k2, v2⟩
        simp only [List.map_cons, List.mem_cons, List.nodup_cons] at hnd
        unfold lookupKey
        have hk2 : k2 ≠ k' := fun he => hnd.1 (.inl he.symm)
        rw [if_neg hk2]
        exact ih2 ⟨fun hm => hnd.1 (.inr hm), hnd.2.2⟩
    · rw [if_neg h]
      unfold lookupKey
      rw [if_neg h]
      exact ih hnd.2

/-- Claim C8: a cache read at an instant past the stored entry's expiry is a
miss and removes the entry: `_get_from_cache` returns no value together with
the cache with the key deleted, and the key no longer resolves afterwards
(cache keys are unique, as in a Python dict). -/
theorem c8_expired_entry_read (key : CacheKey) (now : ℚ) (cache : MatchCache)
    (entry : CacheEntry) (hnd : (cache.map Prod.fst).Nodup)
    (hl : lookupKey key cache = some entry) (hexp : entry.expires_at < now) :
    _get_from_cache key now cache = (none, eraseKey key cache) ∧
    lookupKey key (eraseKey key cache) = none := by
  constructor
  · unfold _get_from_cache
    rw [hl]
    show (if entry.expires_at < now then ((none : Option (List MatchResult)), eraseKey key cache)
      else (some entry.value, moveToEnd key cache)) = (none, eraseKey key cache)
    rw [if_pos hexp]
  · exact lookupKey_eraseKey_of_nodup key cache hnd

/-- Witness for C8: a one-entry cache whose entry expired at time 5, read at
time 6. -/
theorem c8_expired_entry_read_witness :
    _get_from_cache [Char.ofNat 107] 6 [([Char.ofNat 107], ⟨[], 5⟩)] =
      (none, []) ∧
    lookupKey [Char.ofNat 107] (eraseKey [Char.ofNat 107]
      [([Char.ofNat 107], ⟨[], 5⟩)]) = none := by
  have h := c8_expired_entry_read [Char.ofNat 107] 6
    [([Char.ofNat 107], ⟨[], 5⟩)] ⟨[], 5⟩ (by decide) (by decide) (by decide)
  exact ⟨by rw [h.1]; decide, h.2⟩

/-! ## Request canonicalizer (`_deduplicate_jobs` / `_build_cache_key`,
lines 132-162 and 271-283) -/

def _deduplicate_jobs_go (seen : List String) :
    List JobEmbeddingPayload → List JobEmbeddingPayload
  | [] => []
  | job :: rest =>
    match job.id, job.embedding with
    | some jid, some _ =>
      if jid = "" then _deduplicate_jobs_go seen rest
      else if jid ∈ seen then _deduplicate_jobs_go seen rest
      else job :: _deduplicate_jobs_go (jid :: seen) rest
    | _, _ => _deduplicate_jobs_go seen rest

/-- `_deduplicate_jobs`: drop jobs with a falsy id or a missing embedding,
keep the first occurrence of every id (Python dict insertion order). -/
def _deduplicate_jobs (jobs : List JobEmbeddingPayload) : List JobEmbeddingPayload :=
  _deduplicate_jobs_go [] jobs

/-- Decimal digits of an integer. -/
def intChars (i : ℤ) : List Char := (toString i).data

def natChars (n : ℕ) : List Char := (toString n).data

def ratChars (q : ℚ) : List Char := intChars q.num ++ '/' :: natChars q.den

/-- Stand-in for `_hash_vector` (the sha1 hex digest of the float32 bytes of
the vector): an injective serialisation of the exact rational vector.  Two
float64 vectors that coincide after float32 quantisation have equal digests
in the source; that quantisation is below this model's abstraction. -/
def _hash_vector (v : Vec) : List Char :=
  List.intercalate [','] (v.map ratChars)

/-- Stand-in for `_hash_metadata` on the graduate metadata dict: `"0"` for a
falsy (absent or empty) dict, otherwise a canonical sorted-key serialisation
(sha1 modelled as injective). -/
def _hash_grad_metadata : Option GraduateMetadata → List Char
  | none => ['0']
  | some m =>
    if m = ⟨none, none, none, none⟩ then ['0']
    else
      List.intercalate [';']
        ((match m.education with | none => [] | some e => ['d' :: '=' :: e.data]) ++
         (match m.experience_years with | none => [] | some q => ['x' :: '=' :: ratChars q]) ++
         (match m.latest_experience_year with | none => [] | some i => ['y' :: '=' :: intChars i]) ++
         (match m.skills with
          | none => []
          | some l => ['s' :: '=' :: List.intercalate [','] (l.map String.data)]))

/-- Stand-in for `_hash_metadata` on a job metadata dict. -/
def _hash_job_metadata : Option JobMetadata → List Char
  | none => ['0']
  | some m =>
    if m = ⟨none, none, none, none⟩ then ['0']
    else
      List.intercalate [';']
        ((match m.education with | none => [] | some e => ['d' :: '=' :: e.data]) ++
         (match m.experience_years with | none => [] | some q => ['x' :: '=' :: ratChars q]) ++
         (match m.skills with
          | none => []
          | some l => ['s' :: '=' :: List.intercalate [','] (l.map String.data)]) ++
         (match m.updated_at with | none => [] | some u => ['u' :: '=' :: u.data]))

/-- Canonical serialisation of the weights override dict, keys sorted. -/
def _weights_serialised (w : MatchWeights) : List Char :=
  List.intercalate [',']
    ((match w.education with | none => [] | some q => ['d' :: '=' :: ratChars q]) ++
     (match w.embedding with | none => [] | some q => ['m' :: '=' :: ratChars q]) ++
     (match w.experience with | none => [] | some q => ['x' :: '=' :: ratChars q]) ++
     (match w.freshness with | none => [] | some q => ['f' :: '=' :: ratChars q]) ++
     (match w.skills with | none => [] | some q => ['s' :: '=' :: ratChars q]))

/-- `json.dumps(options or {}, sort_keys=True)`: a falsy (absent or empty)
options dict serialises to the empty-object string. -/
def _options_serialised : Option MatchOptions → List Char
  | none => ['e']
  | some o =>
    if o = ⟨none, none, none⟩ then ['e']
    else
      List.intercalate [';']
        ((match o.limit with | none => [] | some i => ['l' :: '=' :: intChars i]) ++
         (match o.min_score with | none => [] | some q => ['n' :: '=' :: ratChars q]) ++
         (match o.weights with | none => [] | some w => ['w' :: '=' :: _weights_serialised w]))

/-- `_build_cache_key`: the graduate-vector digest, the graduate-metadata
digest and the serialised options, followed for each job (in order) by
`job_id + "|" + vector digest + "|" + metadata digest`, all joined with
`"::"`.  The final sha1 of the joined string is modelled as injective, i.e.
as the joined string itself. -/
def _build_cache_key (graduate_embedding : Vec)
    (job_embeddings : List JobEmbeddingPayload)
    (graduate_metadata : Option GraduateMetadata)
    (options : Option MatchOptions) : CacheKey :=
  let components :=
    [_hash_vector graduate_embedding, _hash_grad_metadata graduate_metadata,
     _options_serialised options] ++
    job_embeddings.map (fun job =>
      List.intercalate ['|']
        [(job.id.getD "").data, _hash_vector (job.embedding.getD []),
         _hash_job_metadata job.metadata])
  List.intercalate [':', ':'] components

/-! ## Claim C6 — cache-key stability and distinctness

The stability half of the claim holds: logically equal inputs produce equal
keys (including the falsy collapses `None`-vs-`{}` for metadata and
options).  The distinctness half fails: `_build_cache_key` concatenates the
caller-supplied job id between `"|"` and `"::"` separators, so a job id that
itself embeds digest-and-separator material makes one job list produce the
byte-identical pre-hash string (hence the identical sha1 key) as a different
two-job list. -/

/-- Claim C6, counterexample: the single-job list whose id embeds
`"|" ... "::"` material collides with a two-job list — both are fixed points
of deduplication and have different ids, yet their cache keys (for the same
graduate embedding, metadata and options) are identical. -/
theorem c6_counterexample :
    _deduplicate_jobs [⟨some "x|1/1|0::y", some [2], none⟩] =
      [⟨some "x|1/1|0::y", some [2], none⟩] ∧
    _deduplicate_jobs [⟨some "x", some [1], none⟩, ⟨some "y", some [2], none⟩] =
      [⟨some "x", some [1], none⟩, ⟨some "y", some [2], none⟩] ∧
    ([⟨some "x|1/1|0::y", some [2], none⟩] :
      List JobEmbeddingPayload) ≠ [⟨some "x", some [1], none⟩, ⟨some "y", some [2], none⟩] ∧
    _build_cache_key [0] [⟨some "x|1/1|0::y", some [2], none⟩] none none =
      _build_cache_key [0] [⟨some "x", some [1], none⟩, ⟨some "y", some [2], none⟩] none none := by
  refine ⟨by decide, by decide, by decide, by decide⟩

/-- Python falsiness of the graduate metadata argument: absent, or an empty
dict. -/
def gradMetadataFalsy (m : Option GraduateMetadata) : Prop :=
  m = none ∨ m = some ⟨none, none, none, none⟩

/-- Python falsiness of the options argument: absent, or an empty dict. -/
def optionsFalsy (o : Option MatchOptions) : Prop :=
  o = none ∨ o = some ⟨none, none, none⟩

theorem hash_grad_metadata_falsy (m : Option GraduateMetadata)
    (h : gradMetadataFalsy m) : _hash_grad_metadata m = ['0'] := by
  rcases h with rfl | rfl
  · rfl
  · decide

theorem options_serialised_falsy (o : Option MatchOptions)
    (h : optionsFalsy o) : _options_serialised o = ['e'] := by
  rcases h with rfl | rfl
  · rfl
  · decide

/-- Claim C6 (amended): the cache key is stable — repeated calls whose
graduate embedding, deduplicated job records and options are equal, and
whose graduate metadata and options agree up to Python falsiness (absent
versus empty dict), produce the identical key.  The distinctness half of the
original claim is dropped: per `c6_counterexample` two different job sets
can share a key when a job id embeds separator material (and float32
quantisation likewise identifies nearby embeddings). -/
theorem c6_cache_key_stability (g : Vec) (jobs : List JobEmbeddingPayload)
    (gm gm' : Option GraduateMetadata) (o o' : Option MatchOptions)
    (hm : gm = gm' ∨ (gradMetadataFalsy gm ∧ gradMetadataFalsy gm'))
    (ho : o = o' ∨ (optionsFalsy o ∧ optionsFalsy o')) :
    _build_cache_key g jobs gm o = _build_cache_key g jobs gm' o' := by
  have h1 : _hash_grad_metadata gm = _hash_grad_metadata gm' := by
    rcases hm with rfl | ⟨hf, hf'⟩
    · rfl
    · rw [hash_grad_metadata_falsy gm hf, hash_grad_metadata_falsy gm' hf']
  have h2 : _options_serialised o = _options_serialised o' := by
    rcases ho with rfl | ⟨hf, hf'⟩
    · rfl
    · rw [options_serialised_falsy o hf, options_serialised_falsy o' hf']
  unfold _build_cache_key
  rw [h1, h2]

/-- Witness for C6 (amended): absent metadata/options and empty-dict
metadata/options produce the same key. -/
theorem c6_cache_key_stability_witness :
    _build_cache_key [0] [⟨some "x", some [1], none⟩] none none =
      _build_cache_key [0] [⟨some "x", some [1], none⟩]
        (some ⟨none, none, none, none⟩) (some ⟨none, none, none⟩) :=
  c6_cache_key_stability [0] [⟨some "x", some [1], none⟩] none
    (some ⟨none, none, none, none⟩) none (some ⟨none, none, none⟩)
    (Or.inr ⟨Or.inl rfl, Or.inr rfl⟩) (Or.inr ⟨Or.inl rfl, Or.inr rfl⟩)

/-! ## Option preparation (`_prepare_options`, lines 286-299) -/

def _prepare_options (cfg : MatcherConfig) (options : Option MatchOptions) :
    ℚ × ℤ × FactorWeights :=
  let min_score := match options with
    | none => cfg.default_min_score
    | some o => o.min_score.getD cfg.default_min_score
  let limit := match options with
    | none => cfg.default_max_results
    | some o => o.limit.getD cfg.default_max_results
  -- `DEFAULT_WEIGHTS.copy()` updated with the caller's (possibly partial)
  -- override; an absent or empty override dict leaves the defaults
  let weights_input := match options with
    | none => cfg.default_weights
    | some o =>
      match o.weights with
      | none => cfg.default_weights
      | some w =>
        ⟨w.embedding.getD cfg.default_weights.embedding,
         w.skills.getD cfg.default_weights.skills,
         w.education.getD cfg.default_weights.education,
         w.experience.getD cfg.default_weights.experience,
         w.freshness.getD cfg.default_weights.freshness⟩
  let weights := _normalise_weights weights_input
  (max 0 (min min_score 1), max 1 limit, weights)

/-! ## Per-job scoring (the loop body of `compute_matches`, lines 338-380) -/

/-- The five unrounded factor sub-scores of one job against the graduate. -/
def _job_factors (cos : Vec → Vec → ℚ) (fresh : Option String → ℚ)
    (grad_skills : Option (List String)) (grad_education : Option String)
    (grad_experience_years : Option ℚ) (graduate_embedding : Vec)
    (job : JobEmbeddingPayload) : MatchFactors :=
  let md := job.metadata.getD ⟨none, none, none, none⟩
  ⟨min (max (_cosine_value cos graduate_embedding (job.embedding.getD [])) 0) 1,
   _skills_similarity grad_skills md.skills,
   _education_similarity grad_education md.education,
   _experience_similarity grad_experience_years md.experience_years,
   fresh md.updated_at⟩

/-- The unrounded weighted combination of the five factor sub-scores. -/
def _combined_score (weights : FactorWeights) (f : MatchFactors) : ℚ :=
  f.embedding * weights.embedding + f.skills * weights.skills +
    f.education * weights.education + f.experience * weights.experience +
    f.freshness * weights.freshness

/-- One iteration of the `for job in jobs` loop: `.ok none` when the job is
skipped (falsy id, missing embedding or combined score below the
threshold), `.ok (some result)` when it is kept, `.error` when its
embedding fails dimension validation inside `cosine_similarity`. -/
def _score_job (cfg : MatcherConfig) (cos : Vec → Vec → ℚ)
    (fresh : Option String → ℚ) (weights : FactorWeights) (min_score : ℚ)
    (grad_skills : Option (List String)) (grad_education : Option String)
    (grad_experience_years : Option ℚ) (graduate_embedding : Vec)
    (job : JobEmbeddingPayload) : Except String (Option MatchResult) :=
  match job.id, job.embedding with
  | some jid, some emb =>
    if jid = "" then .ok none
    else
      let md := job.metadata.getD ⟨none, none, none, none⟩
      match cosine_similarity cfg cos graduate_embedding emb with
      | .error e => .error e
      | .ok c =>
        let embedding_score := min (max c 0) 1
        let skills_score := _skills_similarity grad_skills md.skills
        let education_score := _education_similarity grad_education md.education
        let experience_score := _experience_similarity grad_experience_years md.experience_years
        let freshness := fresh md.updated_at
        let combined_score := embedding_score * weights.embedding +
          skills_score * weights.skills + education_score * weights.education +
          experience_score * weights.experience + freshness * weights.freshness
        if combined_score < min_score then .ok none
        else .ok (some ⟨jid, round4 combined_score,
          ⟨round4 embedding_score, round4 skills_score, round4 education_score,
           round4 experience_score, round4 freshness⟩⟩)
  | _, _ => .ok none

/-- The whole loop, accumulating kept results in input order; the first
dimension-validation failure aborts the call. -/
def _score_jobs (cfg : MatcherConfig) (cos : Vec → Vec → ℚ)
    (fresh : Option String → ℚ) (weights : FactorWeights) (min_score : ℚ)
    (grad_skills : Option (List String)) (grad_education : Option String)
    (grad_experience_years : Option ℚ) (graduate_embedding : Vec) :
    List JobEmbeddingPayload → Except String (List MatchResult)
  | [] => .ok []
  | job :: rest =>
    match _score_job cfg cos fresh weights min_score grad_skills grad_education
        grad_experience_years graduate_embedding job with
    | .error e => .error e
    | .ok r? =>
      match _score_jobs cfg cos fresh weights min_score grad_skills grad_education
          grad_experience_years graduate_embedding rest with
      | .error e => .error e
      | .ok rs =>
        .ok (match r? with | none => rs | some r => r :: rs)

/-- The sort order of `results.sort(key=lambda item: item["score"],
reverse=True)`: descending by the stored (rounded) score.  Python's sort is
stable; `List.insertionSort` with this reflexive relation computes the same
stable descending ordering. -/
def scoreDescRel (a b : MatchResult) : Prop := b.score ≤ a.score

instance : DecidableRel scoreDescRel :=
  fun a b => inferInstanceAs (Decidable (b.score ≤ a.score))

instance : IsTotal MatchResult scoreDescRel :=
  ⟨fun a b => (le_total a.score b.score).symm⟩

instance : IsTrans MatchResult scoreDescRel :=
  ⟨fun _ _ _ h1 h2 => le_trans h2 h1⟩

/-- Lines 382-384: `results.sort(key=..., reverse=True)` followed by
`if results: results = results[:limit]`. -/
def _rank_truncate (limit : ℤ) (results : List MatchResult) : List MatchResult :=
  let sorted := List.insertionSort scoreDescRel results
  if sorted = [] then sorted else sorted.take limit.toNat

/-! ## The orchestrator (`compute_matches`, lines 302-390)

The model returns the `Except` outcome paired with the final cache state;
the Boolean in the successful outcome records whether the list was served
from the cache (the early `return cached` at line 322).  The module-level
`raise Exception(f"Failed to compute matches: ...")` wrapper re-raises
every failure, so the `.error` outcomes model exactly the raising
executions. -/

def compute_matches (cfg : MatcherConfig) (cos : Vec → Vec → ℚ)
    (fresh : Option String → ℚ) (graduate_embedding : Vec)
    (job_embeddings : List JobEmbeddingPayload)
    (graduate_metadata : Option GraduateMetadata)
    (options : Option MatchOptions) (now : ℚ) (cache : MatchCache) :
    Except String (List MatchResult × Bool) × MatchCache :=
  match _validate_vector cfg graduate_embedding with
  | .error e => (.error e, cache)
  | .ok _ =>
    let jobs := _deduplicate_jobs job_embeddings
    if jobs = [] then (.ok ([], false), cache)
    else
      let cache_key := _build_cache_key graduate_embedding jobs graduate_metadata options
      match _get_from_cache cache_key now cache with
      | (some cached, cache') => (.ok (cached, true), cache')
      | (none, cache') =>
        let po := _prepare_options cfg options
        let min_score := po.1
        let limit := po.2.1
        let weights := po.2.2
        let grad_skills := graduate_metadata.bind GraduateMetadata.skills
        let grad_education := graduate_metadata.bind GraduateMetadata.education
        let grad_experience_years := graduate_metadata.bind GraduateMetadata.experience_years
        match _score_jobs cfg cos fresh weights min_score grad_skills grad_education
            grad_experience_years graduate_embedding jobs with
        | .error e => (.error e, cache')
        | .ok results =>
          let truncated := _rank_truncate limit results
          (.ok (truncated, false), _set_cache cfg cache_key truncated now cache')

/-! ## Helper lemmas about validation, deduplication and the scoring loop -/

theorem validate_vector_ok (cfg : MatcherConfig) (v : Vec)
    (h : v.length = cfg.embedding_dimension) : _validate_vector cfg v = .ok () := by
  unfold _validate_vector
  rw [if_pos h]

theorem validate_vector_error (cfg : MatcherConfig) (v : Vec)
    (h : v.length ≠ cfg.embedding_dimension) :
    _validate_vector cfg v = .error ("Embedding dimension mismatch") := by
  unfold _validate_vector
  rw [if_neg h]

/-- Every job surviving deduplication has a non-empty id and an embedding. -/
theorem deduplicate_jobs_go_shape (jobs : List JobEmbeddingPayload) :
    ∀ seen, ∀ j ∈ _deduplicate_jobs_go seen jobs,
      ∃ jid e, j.id = some jid ∧ jid ≠ "" ∧ j.embedding = some e := by
  induction jobs with
  | nil => intro seen j hj; simp [_deduplicate_jobs_go] at hj
  | cons job rest ih =>
    intro seen j hj
    rcases job with ⟨oid, oemb, omd⟩
    cases oid with
    | none =>
      simp only [_deduplicate_jobs_go] at hj
      exact ih seen j hj
    | some jid =>
      cases oemb with
      | none =>
        simp only [_deduplicate_jobs_go] at hj
        exact ih seen j hj
      | some e =>
        simp only [_deduplicate_jobs_go] at hj
        by_cases h1 : jid = ""
        · rw [if_pos h1] at hj
          exact ih seen j hj
        · rw [if_neg h1] at hj
          by_cases h2 : jid ∈ seen
          · rw [if_pos h2] at hj
            exact ih seen j hj
          · rw [if_neg h2] at hj
            rcases List.mem_cons.mp hj with rfl | hj2
            · exact ⟨jid, e, rfl, h1, rfl⟩
            · exact ih _ j hj2

theorem deduplicate_jobs_shape (jobs : List JobEmbeddingPayload) :
    ∀ j ∈ _deduplicate_jobs jobs,
      ∃ jid e, j.id = some jid ∧ jid ≠ "" ∧ j.embedding = some e :=
  deduplicate_jobs_go_shape jobs []

theorem cosine_similarity_ok (cfg : MatcherConfig) (cos : Vec → Vec → ℚ)
    (v1 v2 : Vec) (h1 : v1.length = cfg.embedding_dimension)
    (h2 : v2.length = cfg.embedding_dimension) :
    cosine_similarity cfg cos v1 v2 = .ok (_cosine_value cos v1 v2) := by
  unfold cosine_similarity
  rw [validate_vector_ok cfg v1 h1, validate_vector_ok cfg v2 h2]

/-- A job whose embedding is valid never aborts the loop body. -/
theorem score_job_ok_of_valid (cfg : MatcherConfig) (cos : Vec → Vec → ℚ)
    (fresh : Option String → ℚ) (w : FactorWeights) (ms : ℚ)
    (gsk : Option (List String)) (ged : Option String) (gex : Option ℚ)
    (g : Vec) (job : JobEmbeddingPayload)
    (hg : g.length = cfg.embedding_dimension)
    (hemb : ∀ e, job.embedding = some e → e.length = cfg.embedding_dimension) :
    ∃ r, _score_job cfg cos fresh w ms gsk ged gex g job = .ok r := by
  rcases job with ⟨oid, oemb, omd⟩
  cases oid with
  | none => exact ⟨none, rfl⟩
  | some jid =>
    cases oemb with
    | none => exact ⟨none, rfl⟩
    | some e =>
      simp only [_score_job]
      by_cases h1 : jid = ""
      · rw [if_pos h1]
        exact ⟨none, rfl⟩
      · rw [if_neg h1]
        rw [cosine_similarity_ok cfg cos g e hg (hemb e rfl)]
        dsimp only
        split
        · exact ⟨none, rfl⟩
        · exact ⟨some _, rfl⟩

theorem score_jobs_ok_of_valid (cfg : MatcherConfig) (cos : Vec → Vec → ℚ)
    (fresh : Option String → ℚ) (w : FactorWeights) (ms : ℚ)
    (gsk : Option (List String)) (ged : Option String) (gex : Option ℚ)
    (g : Vec) (l : List JobEmbeddingPayload)
    (hg : g.length = cfg.embedding_dimension)
    (hall : ∀ j ∈ l, ∀ e, j.embedding = some e → e.length = cfg.embedding_dimension) :
    ∃ res, _score_jobs cfg cos fresh w ms gsk ged gex g l = .ok res := by
  induction l with
  | nil => exact ⟨[], rfl⟩
  | cons job rest ih =>
    obtain ⟨r, hr⟩ := score_job_ok_of_valid cfg cos fresh w ms gsk ged gex g job hg
      (fun e he => hall job (.head rest) e he)
    obtain ⟨res, hres⟩ := ih (fun j hj e he => hall j (.tail job hj) e he)
    unfold _score_jobs
    simp only [hr, hres]
    exact ⟨_, rfl⟩

/-- A job with a present, invalidly sized embedding (and a usable id) aborts
the loop body with a dimension error. -/
theorem score_job_error_of_bad (cfg : MatcherConfig) (cos : Vec → Vec → ℚ)
    (fresh : Option String → ℚ) (w : FactorWeights) (ms : ℚ)
    (gsk : Option (List String)) (ged : Option String) (gex : Option ℚ)
    (g : Vec) (job : JobEmbeddingPayload) (jid : String) (e : Vec)
    (hg : g.length = cfg.embedding_dimension)
    (hid : job.id = some jid) (hjid : jid ≠ "") (he : job.embedding = some e)
    (hbad : e.length ≠ cfg.embedding_dimension) :
    ∃ msg, _score_job cfg cos fresh w ms gsk ged gex g job = .error msg := by
  rcases job with ⟨oid, oemb, omd⟩
  cases hid
  cases he
  simp only [_score_job]
  rw [if_neg hjid]
  unfold cosine_similarity
  rw [validate_vector_ok cfg g hg, validate_vector_error cfg e hbad]
  exact ⟨_, rfl⟩

theorem score_jobs_error_of_bad (cfg : MatcherConfig) (cos : Vec → Vec → ℚ)
    (fresh : Option String → ℚ) (w : FactorWeights) (ms : ℚ)
    (gsk : Option (List String)) (ged : Option String) (gex : Option ℚ)
    (g : Vec) (l : List JobEmbeddingPayload)
    (hg : g.length = cfg.embedding_dimension)
    (hshape : ∀ j ∈ l, ∃ jid e, j.id = some jid ∧ jid ≠ "" ∧ j.embedding = some e)
    (hbad : ∃ j ∈ l, ∃ e, j.embedding = some e ∧ e.length ≠ cfg.embedding_dimension) :
    ∃ msg, _score_jobs cfg cos fresh w ms gsk ged gex g l = .error msg := by
  induction l with
  | nil => simp at hbad
  | cons job rest ih =>
    obtain ⟨jb, hjb, eb, heb, hbadlen⟩ := hbad
    rcases List.mem_cons.mp hjb with rfl | hjb2
    · obtain ⟨jid, e0, hid, hjid, he0⟩ := hshape jb (.head rest)
      have he' : e0 = eb := by
        rw [he0] at heb
        exact Option.some.inj heb
      subst he'
      obtain ⟨msg, hmsg⟩ := score_job_error_of_bad cfg cos fresh w ms gsk ged gex g jb
        jid e0 hg hid hjid he0 hbadlen
      refine ⟨msg, ?_⟩
      unfold _score_jobs
      rw [hmsg]
    · by_cases hhead : ∃ msg, _score_job cfg cos fresh w ms gsk ged gex g job = .error msg
      · obtain ⟨msg, hmsg⟩ := hhead
        refine ⟨msg, ?_⟩
        unfold _score_jobs
        rw [hmsg]
      · obtain ⟨msg, hmsg⟩ := ih (fun j hj => hshape j (.tail job hj))
          ⟨jb, hjb2, eb, heb, hbadlen⟩
        match hok : _score_job cfg cos fresh w ms gsk ged gex g job with
        | .error m => exact absurd ⟨m, hok⟩ hhead
        | .ok r =>
          refine ⟨msg, ?_⟩
          unfold _score_jobs
          rw [hok, hmsg]

/-! ## Path lemmas for `compute_matches` -/

theorem get_from_cache_none (key : CacheKey) (now : ℚ) (cache : MatchCache)
    (h : lookupKey key cache = none) :
    _get_from_cache key now cache = (none, cache) := by
  unfold _get_from_cache
  rw [h]

theorem get_from_cache_expired (key : CacheKey) (now : ℚ) (cache : MatchCache)
    (e : CacheEntry) (hl : lookupKey key cache = some e)
    (he : e.expires_at < now) :
    _get_from_cache key now cache = (none, eraseKey key cache) := by
  unfold _get_from_cache
  rw [hl]
  show (if e.expires_at < now then ((none : Option (List MatchResult)), eraseKey key cache)
    else (some e.value, moveToEnd key cache)) = (none, eraseKey key cache)
  rw [if_pos he]

theorem get_from_cache_hit (key : CacheKey) (now : ℚ) (cache : MatchCache)
    (e : CacheEntry) (hl : lookupKey key cache = some e)
    (he : ¬ e.expires_at < now) :
    _get_from_cache key now cache = (some e.value, eraseKey key cache ++ [(key, e)]) := by
  unfold _get_from_cache
  rw [hl]
  show (if e.expires_at < now then ((none : Option (List MatchResult)), eraseKey key cache)
    else (some e.value, moveToEnd key cache)) = _
  rw [if_neg he]
  unfold moveToEnd
  rw [hl]

theorem compute_matches_bad_graduate (cfg : MatcherConfig) (cos : Vec → Vec → ℚ)
    (fresh : Option String → ℚ) (g : Vec) (jobs : List JobEmbeddingPayload)
    (gm : Option GraduateMetadata) (opts : Option MatchOptions) (now : ℚ)
    (cache : MatchCache) (hg : g.length ≠ cfg.embedding_dimension) :
    compute_matches cfg cos fresh g jobs gm opts now cache =
      (.error ("Embedding dimension mismatch"), cache) := by
  unfold compute_matches
  rw [validate_vector_error cfg g hg]

theorem compute_matches_empty_dedup (cfg : MatcherConfig) (cos : Vec → Vec → ℚ)
    (fresh : Option String → ℚ) (g : Vec) (jobs : List JobEmbeddingPayload)
    (gm : Option GraduateMetadata) (opts : Option MatchOptions) (now : ℚ)
    (cache : MatchCache) (hg : g.length = cfg.embedding_dimension)
    (hded : _deduplicate_jobs jobs = []) :
    compute_matches cfg cos fresh g jobs gm opts now cache = (.ok ([], false), cache) := by
  unfold compute_matches
  rw [validate_vector_ok cfg g hg]
  dsimp only
  rw [hded]
  rw [if_pos rfl]

theorem compute_matches_hit (cfg : MatcherConfig) (cos : Vec → Vec → ℚ)
    (fresh : Option String → ℚ) (g : Vec) (jobs : List JobEmbeddingPayload)
    (gm : Option GraduateMetadata) (opts : Option MatchOptions) (now : ℚ)
    (cache cache₁ : MatchCache) (v : List MatchResult)
    (hg : g.length = cfg.embedding_dimension)
    (hne : _deduplicate_jobs jobs ≠ [])
    (hget : _get_from_cache (_build_cache_key g (_deduplicate_jobs jobs) gm opts)
      now cache = (some v, cache₁)) :
    compute_matches cfg cos fresh g jobs gm opts now cache = (.ok (v, true), cache₁) := by
  unfold compute_matches
  rw [validate_vector_ok cfg g hg]
  dsimp only
  rw [if_neg hne, hget]

theorem compute_matches_scoring_error (cfg : MatcherConfig) (cos : Vec → Vec → ℚ)
    (fresh : Option String → ℚ) (g : Vec) (jobs : List JobEmbeddingPayload)
    (gm : Option GraduateMetadata) (opts : Option MatchOptions) (now : ℚ)
    (cache cache₁ : MatchCache) (msg : String)
    (hg : g.length = cfg.embedding_dimension)
    (hne : _deduplicate_jobs jobs ≠ [])
    (hget : _get_from_cache (_build_cache_key g (_deduplicate_jobs jobs) gm opts)
      now cache = (none, cache₁))
    (hsc : _score_jobs cfg cos fresh (_prepare_options cfg opts).2.2
      (_prepare_options cfg opts).1 (gm.bind GraduateMetadata.skills)
      (gm.bind GraduateMetadata.education) (gm.bind GraduateMetadata.experience_years)
      g (_deduplicate_jobs jobs) = .error msg) :
    compute_matches cfg cos fresh g jobs gm opts now cache = (.error msg, cache₁) := by
  unfold compute_matches
  rw [validate_vector_ok cfg g hg]
  dsimp only
  rw [if_neg hne, hget]
  dsimp only
  rw [hsc]

theorem compute_matches_miss (cfg : MatcherConfig) (cos : Vec → Vec → ℚ)
    (fresh : Option String → ℚ) (g : Vec) (jobs : List JobEmbeddingPayload)
    (gm : Option GraduateMetadata) (opts : Option MatchOptions) (now : ℚ)
    (cache cache₁ : MatchCache) (results : List MatchResult)
    (hg : g.length = cfg.embedding_dimension)
    (hne : _deduplicate_jobs jobs ≠ [])
    (hget : _get_from_cache (_build_cache_key g (_deduplicate_jobs jobs) gm opts)
      now cache = (none, cache₁))
    (hsc : _score_jobs cfg cos fresh (_prepare_options cfg opts).2.2
      (_prepare_options cfg opts).1 (gm.bind GraduateMetadata.skills)
      (gm.bind GraduateMetadata.education) (gm.bind GraduateMetadata.experience_years)
      g (_deduplicate_jobs jobs) = .ok results) :
    compute_matches cfg cos fresh g jobs gm opts now cache =
      (.ok (_rank_truncate (_prepare_options cfg opts).2.1 results, false),
       _set_cache cfg (_build_cache_key g (_deduplicate_jobs jobs) gm opts)
         (_rank_truncate (_prepare_options cfg opts).2.1 results) now cache₁) := by
  unfold compute_matches
  rw [validate_vector_ok cfg g hg]
  dsimp only
  rw [if_neg hne, hget]
  dsimp only
  rw [hsc]

/-! ## Claim C9 — empty deduplicated job set -/

/-- Claim C9: when the job list deduplicates to the empty set (including the
empty list itself) and the graduate embedding is valid, `compute_matches`
returns the empty result list immediately, not served from the cache, and
the cache state is exactly the input cache state — no read or write
occurred. -/
theorem c9_empty_dedup_no_cache_interaction (cfg : MatcherConfig)
    (cos : Vec → Vec → ℚ) (fresh : Option String → ℚ) (g : Vec)
    (jobs : List JobEmbeddingPayload) (gm : Option GraduateMetadata)
    (opts : Option MatchOptions) (now : ℚ) (cache : MatchCache)
    (hg : g.length = cfg.embedding_dimension)
    (hded : _deduplicate_jobs jobs = []) :
    compute_matches cfg cos fresh g jobs gm opts now cache = (.ok ([], false), cache) :=
  compute_matches_empty_dedup cfg cos fresh g jobs gm opts now cache hg hded

/-- Witness for C9: three malformed jobs (missing id, empty id, missing
embedding) deduplicate to the empty set; the nonempty cache is untouched. -/
theorem c9_empty_dedup_witness :
    compute_matches ⟨2, 300, 1024, 3/10, 50, ⟨3/5, 1/5, 1/10, 1/20, 1/20⟩⟩
      (fun _ _ => 0) (fun _ => 1/2) [0, 0]
      [⟨none, some [1, 1], none⟩, ⟨some "", some [1, 1], none⟩, ⟨some "a", none, none⟩]
      none none 7 [([Char.ofNat 107], ⟨[], 99⟩)] =
      (.ok ([], false), [([Char.ofNat 107], ⟨[], 99⟩)]) :=
  c9_empty_dedup_no_cache_interaction _ _ _ _ _ _ _ _ _ (by decide) (by decide)

/-! ## Claim C2 — dimension mismatches abort the whole call

The claim as stated is false: `compute_matches` consults the cache (line
320) before it validates the job embeddings (inside the loop, line 346),
and the cache key of an invalid batch can coincide with the key of a fully
valid earlier call, because `_build_cache_key` splices the caller-supplied
job id between `"|"`/`"::"` separators.  A valid call whose job id embeds
digest-and-separator material therefore stores an entry that a later
invalid batch retrieves verbatim — no error, results returned. -/

/-- Claim C2, counterexample: the two-job batch `[("a", [1,1]), ("b", [1])]`
is invalid (job `"a"`'s embedding has length 2, not the declared 1) and
survives deduplication, yet the call does not raise.  First a fully valid
call with the single job id `"a|1/1,1/1|0::b"` (embedding the digest
`1/1,1/1` of the wrong-dimension vector `[1, 1]` and the separators) stores
its result under the byte-identical cache key; the subsequent invalid call
then returns that cached list with no error, because the cache read
precedes job dimension validation.  In the Python source the same id with
the sha1 hex digests in place of the stand-in digests produces the same
collision. -/
theorem c2_counterexample :
    _deduplicate_jobs [⟨some "a", some [1, 1], none⟩, ⟨some "b", some [1], none⟩] =
      [⟨some "a", some [1, 1], none⟩, ⟨some "b", some [1], none⟩] ∧
    ([1, 1] : Vec).length ≠
      (⟨1, 300, 1024, 3/10, 50, ⟨3/5, 1/5, 1/10, 1/20, 1/20⟩⟩ :
        MatcherConfig).embedding_dimension ∧
    compute_matches ⟨1, 300, 1024, 3/10, 50, ⟨3/5, 1/5, 1/10, 1/20, 1/20⟩⟩
      (fun _ _ => 1) (fun _ => 1/2) [1]
      [⟨some "a|1/1,1/1|0::b", some [1], none⟩] none none 0 [] =
      (.ok ([⟨"a|1/1,1/1|0::b", 141/200, ⟨1, 0, 1/2, 3/5, 1/2⟩⟩], false),
       [(_build_cache_key [1] [⟨some "a|1/1,1/1|0::b", some [1], none⟩] none none,
         ⟨[⟨"a|1/1,1/1|0::b", 141/200, ⟨1, 0, 1/2, 3/5, 1/2⟩⟩], 300⟩)]) ∧
    compute_matches ⟨1, 300, 1024, 3/10, 50, ⟨3/5, 1/5, 1/10, 1/20, 1/20⟩⟩
      (fun _ _ => 1) (fun _ => 1/2) [1]
      [⟨some "a", some [1, 1], none⟩, ⟨some "b", some [1], none⟩] none none 1
      [(_build_cache_key [1] [⟨some "a|1/1,1/1|0::b", some [1], none⟩] none none,
        ⟨[⟨"a|1/1,1/1|0::b", 141/200, ⟨1, 0, 1/2, 3/5, 1/2⟩⟩], 300⟩)] =
      (.ok ([⟨"a|1/1,1/1|0::b", 141/200, ⟨1, 0, 1/2, 3/5, 1/2⟩⟩], true),
       [(_build_cache_key [1] [⟨some "a|1/1,1/1|0::b", some [1], none⟩] none none,
         ⟨[⟨"a|1/1,1/1|0::b", 141/200, ⟨1, 0, 1/2, 3/5, 1/2⟩⟩], 300⟩)]) :=
  ⟨by decide, by decide, by decide, by decide⟩

/-- Claim C2 (amended): if the graduate embedding, or the embedding of a job
that survives deduplication, has the wrong dimension, *and no cache entry
exists under the call's computed key*, then `compute_matches` raises
(returns an error, hence no partial results) and leaves the cache exactly
as it was.  The no-entry proviso is necessary: per `c2_counterexample` a
prior valid call with a separator-embedding job id can populate the invalid
batch's key, and the invalid call is then served from the cache without
error. -/
theorem c2_dimension_mismatch_aborts (cfg : MatcherConfig) (cos : Vec → Vec → ℚ)
    (fresh : Option String → ℚ) (g : Vec) (jobs : List JobEmbeddingPayload)
    (gm : Option GraduateMetadata) (opts : Option MatchOptions) (now : ℚ)
    (cache : MatchCache)
    (hbad : g.length ≠ cfg.embedding_dimension ∨
      ∃ j ∈ _deduplicate_jobs jobs, ∃ e, j.embedding = some e ∧
        e.length ≠ cfg.embedding_dimension)
    (hmiss : lookupKey (_build_cache_key g (_deduplicate_jobs jobs) gm opts) cache = none) :
    ∃ msg, compute_matches cfg cos fresh g jobs gm opts now cache = (.error msg, cache) := by
  by_cases hg : g.length = cfg.embedding_dimension
  · rcases hbad with hbg | ⟨j, hj, e, he, hbadlen⟩
    · exact absurd hg hbg
    · have hne : _deduplicate_jobs jobs ≠ [] := by
        intro h0
        rw [h0] at hj
        simp at hj
      have hget := get_from_cache_none _ now cache hmiss
      obtain ⟨msg, hmsg⟩ := score_jobs_error_of_bad cfg cos fresh
        (_prepare_options cfg opts).2.2 (_prepare_options cfg opts).1
        (gm.bind GraduateMetadata.skills) (gm.bind GraduateMetadata.education)
        (gm.bind GraduateMetadata.experience_years) g (_deduplicate_jobs jobs) hg
        (deduplicate_jobs_shape jobs) ⟨j, hj, e, he, hbadlen⟩
      exact ⟨msg, compute_matches_scoring_error cfg cos fresh g jobs gm opts now
        cache cache msg hg hne hget hmsg⟩
  · exact ⟨_, compute_matches_bad_graduate cfg cos fresh g jobs gm opts now cache hg⟩

/-- Witness for C2: a two-dimensional configuration, a one-dimensional
graduate embedding and an empty cache — the call errors and the cache stays
empty. -/
theorem c2_dimension_mismatch_witness :
    ∃ msg, compute_matches ⟨2, 300, 1024, 3/10, 50, ⟨3/5, 1/5, 1/10, 1/20, 1/20⟩⟩
      (fun _ _ => 0) (fun _ => 1/2) [0] [⟨some "a", some [1, 1], none⟩]
      none none 7 [] = (.error msg, []) :=
  c2_dimension_mismatch_aborts _ _ _ _ _ _ _ _ _ (Or.inl (by decide)) (by decide)

/-! ## Order and stability lemmas -/

theorem pair_sublist_antisymm {α : Type _} (l : List α) (hnd : l.Nodup) (a b : α)
    (h1 : [a, b].Sublist l) (h2 : [b, a].Sublist l) : False := by
  induction l with
  | nil => cases h1
  | cons x t ih =>
    rw [List.nodup_cons] at hnd
    match h1 with
    | .cons _ h1' =>
      match h2 with
      | .cons _ h2' => exact ih hnd.2 h1' h2'
      | .cons₂ _ h2' => exact hnd.1 (h1'.subset (by simp))
    | .cons₂ _ h1' =>
      match h2 with
      | .cons _ h2' => exact hnd.1 (h2'.subset (by simp))
      | .cons₂ _ h2' => exact hnd.1 (h1'.subset (by simp))

theorem pair_sublist_total {α : Type _} {l : List α} {a b : α}
    (ha : a ∈ l) (hb : b ∈ l) (hab : a ≠ b) :
    [a, b].Sublist l ∨ [b, a].Sublist l := by
  induction l with
  | nil => cases ha
  | cons x t ih =>
    rcases List.mem_cons.mp ha with rfl | ha'
    · have hb' : b ∈ t := by
        rcases List.mem_cons.mp hb with rfl | hb'
        · exact absurd rfl hab
        · exact hb'
      exact .inl (List.cons_sublist_cons.mpr (List.singleton_sublist.mpr hb'))
    · rcases List.mem_cons.mp hb with rfl | hb'
      · exact .inr (List.cons_sublist_cons.mpr (List.singleton_sublist.mpr ha'))
      · exact (ih ha' hb').imp (List.Sublist.cons x) (List.Sublist.cons x)

/-- The ids of the deduplicated job list are pairwise distinct (and avoid the
`seen` accumulator). -/
theorem deduplicate_jobs_go_ids_nodup (jobs : List JobEmbeddingPayload) :
    ∀ seen, ((_deduplicate_jobs_go seen jobs).filterMap JobEmbeddingPayload.id).Nodup ∧
      ∀ i ∈ (_deduplicate_jobs_go seen jobs).filterMap JobEmbeddingPayload.id, i ∉ seen := by
  induction jobs with
  | nil => intro seen; simp [_deduplicate_jobs_go]
  | cons job rest ih =>
    intro seen
    rcases job with ⟨oid, oemb, omd⟩
    cases oid with
    | none => simpa only [_deduplicate_jobs_go] using ih seen
    | some jid =>
      cases oemb with
      | none => simpa only [_deduplicate_jobs_go] using ih seen
      | some e =>
        simp only [_deduplicate_jobs_go]
        by_cases h1 : jid = ""
        · rw [if_pos h1]
          exact ih seen
        · rw [if_neg h1]
          by_cases h2 : jid ∈ seen
          · rw [if_pos h2]
            exact ih seen
          · rw [if_neg h2]
            have ihr := ih (jid :: seen)
            constructor
            · rw [List.filterMap_cons]
              show (jid :: (_deduplicate_jobs_go (jid :: seen) rest).filterMap
                JobEmbeddingPayload.id).Nodup
              rw [List.nodup_cons]
              refine ⟨fun hmem => ?_, ihr.1⟩
              exact ihr.2 jid hmem (List.mem_cons_self jid seen)
            · intro i hi
              rw [List.filterMap_cons] at hi
              rcases List.mem_cons.mp hi with rfl | hi'
              · exact h2
              · intro hseen
                exact ihr.2 i hi' (List.mem_cons_of_mem jid hseen)

theorem deduplicate_jobs_ids_nodup (jobs : List JobEmbeddingPayload) :
    ((_deduplicate_jobs jobs).filterMap JobEmbeddingPayload.id).Nodup :=
  (deduplicate_jobs_go_ids_nodup jobs []).1

/-- Characterisation of a kept result: its id is the job's id, the unrounded
combined score met the threshold, and the reported score is the rounded
combined score. -/
theorem score_job_ok_some (cfg : MatcherConfig) (cos : Vec → Vec → ℚ)
    (fresh : Option String → ℚ) (w : FactorWeights) (ms : ℚ)
    (gsk : Option (List String)) (ged : Option String) (gex : Option ℚ)
    (g : Vec) (job : JobEmbeddingPayload) (r : MatchResult)
    (h : _score_job cfg cos fresh w ms gsk ged gex g job = .ok (some r)) :
    ∃ jid, job.id = some jid ∧ r.id = jid ∧
      ms ≤ _combined_score w (_job_factors cos fresh gsk ged gex g job) ∧
      r.score = round4 (_combined_score w (_job_factors cos fresh gsk ged gex g job)) := by
  rcases job with ⟨oid, oemb, omd⟩
  cases oid with
  | none => simp [_score_job] at h
  | some jid =>
    cases oemb with
    | none => simp [_score_job] at h
    | some e =>
      simp only [_score_job] at h
      by_cases h1 : jid = ""
      · rw [if_pos h1] at h
        simp at h
      · rw [if_neg h1] at h
        match hcos : cosine_similarity cfg cos g e with
        | .error m =>
          rw [hcos] at h
          simp at h
        | .ok c =>
          have hc : c = _cosine_value cos g e := by
            unfold cosine_similarity at hcos
            match hv1 : _validate_vector cfg g with
            | .error m => rw [hv1] at hcos; simp at hcos
            | .ok _ =>
              match hv2 : _validate_vector cfg e with
              | .error m => rw [hv1, hv2] at hcos; simp at hcos
              | .ok _ =>
                rw [hv1, hv2] at hcos
                simp at hcos
                exact hcos.symm
          subst hc
          rw [hcos] at h
          dsimp only at h
          split at h
          · simp at h
          · next hge =>
            injection h with h'
            injection h' with h''
            subst h''
            exact ⟨jid, rfl, rfl, not_lt.mp hge, rfl⟩

theorem score_jobs_mem (cfg : MatcherConfig) (cos : Vec → Vec → ℚ)
    (fresh : Option String → ℚ) (w : FactorWeights) (ms : ℚ)
    (gsk : Option (List String)) (ged : Option String) (gex : Option ℚ)
    (g : Vec) :
    ∀ l res, _score_jobs cfg cos fresh w ms gsk ged gex g l = .ok res →
      ∀ r ∈ res, ∃ j ∈ l,
        _score_job cfg cos fresh w ms gsk ged gex g j = .ok (some r) := by
  intro l
  induction l with
  | nil =>
    intro res h r hr
    simp only [_score_jobs] at h
    injection h with h'
    subst h'
    simp at hr
  | cons job rest ih =>
    intro res h r hr
    simp only [_score_jobs] at h
    match hj : _score_job cfg cos fresh w ms gsk ged gex g job with
    | .error m =>
      rw [hj] at h
      simp at h
    | .ok r? =>
      match hrest : _score_jobs cfg cos fresh w ms gsk ged gex g rest with
      | .error m =>
        rw [hj, hrest] at h
        simp at h
      | .ok rs =>
        rw [hj, hrest] at h
        dsimp only at h
        injection h with h'
        subst h'
        cases r? with
        | none =>
          obtain ⟨j, hjmem, hje⟩ := ih rs hrest r hr
          exact ⟨j, List.mem_cons_of_mem _ hjmem, hje⟩
        | some r0 =>
          rcases List.mem_cons.mp hr with rfl | hr'
          · exact ⟨job, List.mem_cons_self _ _, hj⟩
          · obtain ⟨j, hjmem, hje⟩ := ih rs hrest r hr'
            exact ⟨j, List.mem_cons_of_mem _ hjmem, hje⟩

theorem score_jobs_ids_sublist (cfg : MatcherConfig) (cos : Vec → Vec → ℚ)
    (fresh : Option String → ℚ) (w : FactorWeights) (ms : ℚ)
    (gsk : Option (List String)) (ged : Option String) (gex : Option ℚ)
    (g : Vec) :
    ∀ l res, _score_jobs cfg cos fresh w ms gsk ged gex g l = .ok res →
      (res.map MatchResult.id).Sublist (l.filterMap JobEmbeddingPayload.id) := by
  intro l
  induction l with
  | nil =>
    intro res h
    simp only [_score_jobs] at h
    injection h with h'
    subst h'
    simp
  | cons job rest ih =>
    intro res h
    simp only [_score_jobs] at h
    match hj : _score_job cfg cos fresh w ms gsk ged gex g job with
    | .error m =>
      rw [hj] at h
      simp at h
    | .ok r? =>
      match hrest : _score_jobs cfg cos fresh w ms gsk ged gex g rest with
      | .error m =>
        rw [hj, hrest] at h
        simp at h
      | .ok rs =>
        rw [hj, hrest] at h
        dsimp only at h
        injection h with h'
        subst h'
        have hsub := ih rs hrest
        cases r? with
        | none =>
          rw [List.filterMap_cons]
          cases hoid : job.id with
          | none => exact hsub
          | some jid => exact List.Sublist.cons _ hsub
        | some r0 =>
          obtain ⟨jid, hjid, hrid, _, _⟩ := score_job_ok_some cfg cos fresh w ms
            gsk ged gex g job r0 hj
          rw [List.filterMap_cons, hjid]
          dsimp only
          rw [List.map_cons, hrid]
          exact List.cons_sublist_cons.mpr hsub

/-- Inversion: a successful `compute_matches` call that was not served from
the cache either returned the empty list (empty deduplicated job set) or
returned the ranked, truncated scoring-loop output. -/
theorem compute_matches_ok_false_inv (cfg : MatcherConfig) (cos : Vec → Vec → ℚ)
    (fresh : Option String → ℚ) (g : Vec) (jobs : List JobEmbeddingPayload)
    (gm : Option GraduateMetadata) (opts : Option MatchOptions) (now : ℚ)
    (cache cache' : MatchCache) (res : List MatchResult)
    (h : compute_matches cfg cos fresh g jobs gm opts now cache = (.ok (res, false), cache')) :
    res = [] ∨ ∃ results,
      _score_jobs cfg cos fresh (_prepare_options cfg opts).2.2
        (_prepare_options cfg opts).1 (gm.bind GraduateMetadata.skills)
        (gm.bind GraduateMetadata.education) (gm.bind GraduateMetadata.experience_years)
        g (_deduplicate_jobs jobs) = .ok results ∧
      res = _rank_truncate (_prepare_options cfg opts).2.1 results := by
  unfold compute_matches at h
  match hv : _validate_vector cfg g with
  | .error m =>
    rw [hv] at h
    simp at h
  | .ok u =>
    rw [hv] at h
    dsimp only at h
    by_cases hded : _deduplicate_jobs jobs = []
    · rw [hded] at h
      rw [if_pos rfl] at h
      simp only [Prod.mk.injEq, Except.ok.injEq] at h
      exact .inl h.1.1.symm
    · rw [if_neg hded] at h
      match hget : _get_from_cache (_build_cache_key g (_deduplicate_jobs jobs) gm opts)
          now cache with
      | (some v, c₁) =>
        rw [hget] at h
        simp at h
      | (none, c₁) =>
        rw [hget] at h
        dsimp only at h
        match hsc : _score_jobs cfg cos fresh (_prepare_options cfg opts).2.2
            (_prepare_options cfg opts).1 (gm.bind GraduateMetadata.skills)
            (gm.bind GraduateMetadata.education) (gm.bind GraduateMetadata.experience_years)
            g (_deduplicate_jobs jobs) with
        | .error m =>
          rw [hsc] at h
          simp at h
        | .ok results =>
          rw [hsc] at h
          dsimp only at h
          simp only [Prod.mk.injEq, Except.ok.injEq] at h
          exact .inr ⟨results, rfl, h.1.1.symm⟩

/-! ## Claim C4 — ranking order and tie-breaking -/

/-- Claim C4 (amended): in a freshly computed (not cache-served) result list,
results are ordered by the *stored, 4-decimal-rounded* score descending, and
any two results whose stored scores are equal appear in the same relative
order as their jobs in the deduplicated input. -/
theorem c4_sort_rounded_stable (cfg : MatcherConfig) (cos : Vec → Vec → ℚ)
    (fresh : Option String → ℚ) (g : Vec) (jobs : List JobEmbeddingPayload)
    (gm : Option GraduateMetadata) (opts : Option MatchOptions) (now : ℚ)
    (cache cache' : MatchCache) (res : List MatchResult)
    (h : compute_matches cfg cos fresh g jobs gm opts now cache = (.ok (res, false), cache')) :
    List.Pairwise scoreDescRel res ∧
    ∀ a b, [a, b].Sublist res → a.score = b.score →
      [a.id, b.id].Sublist ((_deduplicate_jobs jobs).filterMap JobEmbeddingPayload.id) := by
  rcases compute_matches_ok_false_inv cfg cos fresh g jobs gm opts now cache cache' res h
    with rfl | ⟨results, hsc, rfl⟩
  · refine ⟨List.Pairwise.nil, fun a b hab _ => ?_⟩
    cases hab
  · have hids := score_jobs_ids_sublist cfg cos fresh (_prepare_options cfg opts).2.2
      (_prepare_options cfg opts).1 (gm.bind GraduateMetadata.skills)
      (gm.bind GraduateMetadata.education) (gm.bind GraduateMetadata.experience_years)
      g (_deduplicate_jobs jobs) results hsc
    have hnd_ids := deduplicate_jobs_ids_nodup jobs
    have hnd_map : (results.map MatchResult.id).Nodup := hnd_ids.sublist hids
    have hnd_res : results.Nodup := hnd_map.of_map
    have hperm := List.perm_insertionSort scoreDescRel results
    have hnd_sorted : (List.insertionSort scoreDescRel results).Nodup :=
      hperm.nodup_iff.mpr hnd_res
    have hsorted := List.sorted_insertionSort scoreDescRel results
    have hsub : (_rank_truncate (_prepare_options cfg opts).2.1 results).Sublist
        (List.insertionSort scoreDescRel results) := by
      unfold _rank_truncate
      dsimp only
      split
      · exact List.Sublist.refl _
      · exact List.take_sublist _ _
    refine ⟨hsorted.sublist hsub, fun a b hab htie => ?_⟩
    have hab_s : [a, b].Sublist (List.insertionSort scoreDescRel results) :=
      hab.trans hsub
    have ha : a ∈ results := hperm.mem_iff.mp (hab_s.subset (by simp))
    have hb : b ∈ results := hperm.mem_iff.mp (hab_s.subset (by simp))
    have hne_ab : a ≠ b := by
      rintro rfl
      have : ([a, a] : List MatchResult).Nodup := hab_s.nodup hnd_sorted
      simp at this
    rcases pair_sublist_total ha hb hne_ab with hr | hr
    · exact ((hr.map MatchResult.id).trans hids)
    · exfalso
      have hpair : List.Pairwise scoreDescRel [b, a] := by
        refine List.Pairwise.cons (fun x hx => ?_) (List.pairwise_singleton _ _)
        rcases List.mem_singleton.mp hx with rfl
        exact le_of_eq htie
      have hba : [b, a].Sublist (List.insertionSort scoreDescRel results) :=
        List.sublist_insertionSort hpair hr
      exact pair_sublist_antisymm _ hnd_sorted a b hab_s hba

/-- Claim C4, counterexample: the sort key at line 382 is the *rounded*
stored score, not the unrounded combined score.  With experience weight 1,
graduate experience 10 and job experiences 10.0001 and 10, the combined
scores are 100000/100001 and 1 — different, but both round to 1.0000 — so
the stable sort leaves input order and the returned list has its first
result's unrounded combined score strictly below the second's, refuting
"ordered by combined score descending" for the unrounded combined score. -/
theorem c4_counterexample :
    (compute_matches ⟨1, 300, 1024, 3/10, 50, ⟨3/5, 1/5, 1/10, 1/20, 1/20⟩⟩
        (fun _ _ => 0) (fun _ => 1/2) [1]
        [⟨some "a", some [1], some ⟨none, none, some (100001/10000), none⟩⟩,
         ⟨some "b", some [1], some ⟨none, none, some 10, none⟩⟩]
        (some ⟨none, none, some 10, none⟩)
        (some ⟨some 0, none, some ⟨some 0, some 0, some 0, some 1, some 0⟩⟩)
        0 []).1 =
      .ok ([⟨"a", 1, ⟨0, 0, 1/2, 1, 1/2⟩⟩, ⟨"b", 1, ⟨0, 0, 1/2, 1, 1/2⟩⟩], false) ∧
    _combined_score
        (_prepare_options ⟨1, 300, 1024, 3/10, 50, ⟨3/5, 1/5, 1/10, 1/20, 1/20⟩⟩
          (some ⟨some 0, none, some ⟨some 0, some 0, some 0, some 1, some 0⟩⟩)).2.2
        (_job_factors (fun _ _ => 0) (fun _ => 1/2) none none (some 10) [1]
          ⟨some "a", some [1], some ⟨none, none, some (100001/10000), none⟩⟩) <
      _combined_score
        (_prepare_options ⟨1, 300, 1024, 3/10, 50, ⟨3/5, 1/5, 1/10, 1/20, 1/20⟩⟩
          (some ⟨some 0, none, some ⟨some 0, some 0, some 0, some 1, some 0⟩⟩)).2.2
        (_job_factors (fun _ _ => 0) (fun _ => 1/2) none none (some 10) [1]
          ⟨some "b", some [1], some ⟨none, none, some 10, none⟩⟩) :=
  ⟨by decide, by decide⟩

/-- Witness for C4 (amended) at the counterexample input: the returned pair
is ordered by rounded score and its tie keeps deduplicated input order. -/
theorem c4_sort_rounded_stable_witness :
    List.Pairwise scoreDescRel
      [⟨"a", 1, ⟨0, 0, 1/2, 1, 1/2⟩⟩, ⟨"b", 1, ⟨0, 0, 1/2, 1, 1/2⟩⟩] ∧
    ∀ a b, [a, b].Sublist
        [(⟨"a", 1, ⟨0, 0, 1/2, 1, 1/2⟩⟩ : MatchResult), ⟨"b", 1, ⟨0, 0, 1/2, 1, 1/2⟩⟩] →
      a.score = b.score →
      [a.id, b.id].Sublist ((_deduplicate_jobs
        [⟨some "a", some [1], some ⟨none, none, some (100001/10000), none⟩⟩,
         ⟨some "b", some [1], some ⟨none, none, some 10, none⟩⟩]).filterMap
          JobEmbeddingPayload.id) :=
  c4_sort_rounded_stable ⟨1, 300, 1024, 3/10, 50, ⟨3/5, 1/5, 1/10, 1/20, 1/20⟩⟩
    (fun _ _ => 0) (fun _ => 1/2) [1]
    [⟨some "a", some [1], some ⟨none, none, some (100001/10000), none⟩⟩,
     ⟨some "b", some [1], some ⟨none, none, some 10, none⟩⟩]
    (some ⟨none, none, some 10, none⟩)
    (some ⟨some 0, none, some ⟨some 0, some 0, some 0, some 1, some 0⟩⟩)
    0 []
    ((compute_matches ⟨1, 300, 1024, 3/10, 50, ⟨3/5, 1/5, 1/10, 1/20, 1/20⟩⟩
        (fun _ _ => 0) (fun _ => 1/2) [1]
        [⟨some "a", some [1], some ⟨none, none, some (100001/10000), none⟩⟩,
         ⟨some "b", some [1], some ⟨none, none, some 10, none⟩⟩]
        (some ⟨none, none, some 10, none⟩)
        (some ⟨some 0, none, some ⟨some 0, some 0, some 0, some 1, some 0⟩⟩)
        0 []).2)
    [⟨"a", 1, ⟨0, 0, 1/2, 1, 1/2⟩⟩, ⟨"b", 1, ⟨0, 0, 1/2, 1, 1/2⟩⟩]
    (by decide)

/-! ## Claim C10 — threshold on the unrounded score, rounded reporting -/

/-- Claim C10: the threshold filter compares the *unrounded* combined score
against the effective min-score while the returned `score` field is the
4-decimal rounding of it.  Part one: every freshly computed result comes
from a deduplicated job whose unrounded combined score is at least the
effective min-score, and carries the rounded value.  Part two: on a concrete
input (min-score 0.33332, pure skills weight, Jaccard 1/3) the reported
rounded score 0.3333 is strictly below the effective min-score. -/
theorem c10_threshold_unrounded_report_rounded :
    (∀ (cfg : MatcherConfig) (cos : Vec → Vec → ℚ) (fresh : Option String → ℚ)
      (g : Vec) (jobs : List JobEmbeddingPayload) (gm : Option GraduateMetadata)
      (opts : Option MatchOptions) (now : ℚ) (cache cache' : MatchCache)
      (res : List MatchResult),
      compute_matches cfg cos fresh g jobs gm opts now cache = (.ok (res, false), cache') →
      ∀ r ∈ res, ∃ j ∈ _deduplicate_jobs jobs,
        (_prepare_options cfg opts).1 ≤
          _combined_score (_prepare_options cfg opts).2.2
            (_job_factors cos fresh (gm.bind GraduateMetadata.skills)
              (gm.bind GraduateMetadata.education)
              (gm.bind GraduateMetadata.experience_years) g j) ∧
        r.score = round4 (_combined_score (_prepare_options cfg opts).2.2
          (_job_factors cos fresh (gm.bind GraduateMetadata.skills)
            (gm.bind GraduateMetadata.education)
            (gm.bind GraduateMetadata.experience_years) g j))) ∧
    ((compute_matches ⟨1, 300, 1024, 3/10, 50, ⟨3/5, 1/5, 1/10, 1/20, 1/20⟩⟩
        (fun _ _ => 0) (fun _ => 1/2) [1]
        [⟨some "a", some [1], some ⟨some ["a", "b", "c"], none, none, none⟩⟩]
        (some ⟨some ["a"], none, none, none⟩)
        (some ⟨some (8333/25000), none, some ⟨some 0, some 1, some 0, some 0, some 0⟩⟩)
        0 []).1 =
        .ok ([⟨"a", 3333/10000, ⟨0, 3333/10000, 1/2, 3/5, 1/2⟩⟩], false) ∧
      (_prepare_options ⟨1, 300, 1024, 3/10, 50, ⟨3/5, 1/5, 1/10, 1/20, 1/20⟩⟩
        (some ⟨some (8333/25000), none, some ⟨some 0, some 1, some 0, some 0, some 0⟩⟩)).1 =
        8333/25000 ∧
      (3333/10000 : ℚ) < 8333/25000) := by
  constructor
  · intro cfg cos fresh g jobs gm opts now cache cache' res h r hr
    rcases compute_matches_ok_false_inv cfg cos fresh g jobs gm opts now cache cache' res h
      with rfl | ⟨results, hsc, rfl⟩
    · simp at hr
    · have hsub : (_rank_truncate (_prepare_options cfg opts).2.1 results).Sublist
          (List.insertionSort scoreDescRel results) := by
        unfold _rank_truncate
        dsimp only
        split
        · exact List.Sublist.refl _
        · exact List.take_sublist _ _
      have hr2 : r ∈ results :=
        (List.perm_insertionSort scoreDescRel results).mem_iff.mp (hsub.subset hr)
      obtain ⟨j, hjmem, hje⟩ := score_jobs_mem cfg cos fresh (_prepare_options cfg opts).2.2
        (_prepare_options cfg opts).1 (gm.bind GraduateMetadata.skills)
        (gm.bind GraduateMetadata.education) (gm.bind GraduateMetadata.experience_years)
        g (_deduplicate_jobs jobs) results hsc r hr2
      obtain ⟨jid, _, _, hms, hscore⟩ := score_job_ok_some cfg cos fresh
        (_prepare_options cfg opts).2.2 (_prepare_options cfg opts).1
        (gm.bind GraduateMetadata.skills) (gm.bind GraduateMetadata.education)
        (gm.bind GraduateMetadata.experience_years) g j r hje
      exact ⟨j, hjmem, hms, hscore⟩
  · exact ⟨by decide, by decide, by decide⟩

/-- Witness for C10, applying its universal part at the concrete input of
its existential part. -/
theorem c10_threshold_witness :
    ∃ j ∈ _deduplicate_jobs
        [⟨some "a", some [1], some ⟨some ["a", "b", "c"], none, none, none⟩⟩],
      (_prepare_options ⟨1, 300, 1024, 3/10, 50, ⟨3/5, 1/5, 1/10, 1/20, 1/20⟩⟩
        (some ⟨some (8333/25000), none, some ⟨some 0, some 1, some 0, some 0, some 0⟩⟩)).1 ≤
        _combined_score
          (_prepare_options ⟨1, 300, 1024, 3/10, 50, ⟨3/5, 1/5, 1/10, 1/20, 1/20⟩⟩
            (some ⟨some (8333/25000), none,
              some ⟨some 0, some 1, some 0, some 0, some 0⟩⟩)).2.2
          (_job_factors (fun _ _ => 0) (fun _ => 1/2)
            ((some (⟨some ["a"], none, none, none⟩ : GraduateMetadata)).bind
              GraduateMetadata.skills)
            ((some (⟨some ["a"], none, none, none⟩ : GraduateMetadata)).bind
              GraduateMetadata.education)
            ((some (⟨some ["a"], none, none, none⟩ : GraduateMetadata)).bind
              GraduateMetadata.experience_years) [1] j) ∧
      (⟨"a", 3333/10000, ⟨0, 3333/10000, 1/2, 3/5, 1/2⟩⟩ : MatchResult).score =
        round4 (_combined_score
          (_prepare_options ⟨1, 300, 1024, 3/10, 50, ⟨3/5, 1/5, 1/10, 1/20, 1/20⟩⟩
            (some ⟨some (8333/25000), none,
              some ⟨some 0, some 1, some 0, some 0, some 0⟩⟩)).2.2
          (_job_factors (fun _ _ => 0) (fun _ => 1/2)
            ((some (⟨some ["a"], none, none, none⟩ : GraduateMetadata)).bind
              GraduateMetadata.skills)
            ((some (⟨some ["a"], none, none, none⟩ : GraduateMetadata)).bind
              GraduateMetadata.education)
            ((some (⟨some ["a"], none, none, none⟩ : GraduateMetadata)).bind
              GraduateMetadata.experience_years) [1] j)) :=
  c10_threshold_unrounded_report_rounded.1
    ⟨1, 300, 1024, 3/10, 50, ⟨3/5, 1/5, 1/10, 1/20, 1/20⟩⟩
    (fun _ _ => 0) (fun _ => 1/2) [1]
    [⟨some "a", some [1], some ⟨some ["a", "b", "c"], none, none, none⟩⟩]
    (some ⟨some ["a"], none, none, none⟩)
    (some ⟨some (8333/25000), none, some ⟨some 0, some 1, some 0, some 0, some 0⟩⟩)
    0 []
    ((compute_matches ⟨1, 300, 1024, 3/10, 50, ⟨3/5, 1/5, 1/10, 1/20, 1/20⟩⟩
        (fun _ _ => 0) (fun _ => 1/2) [1]
        [⟨some "a", some [1], some ⟨some ["a", "b", "c"], none, none, none⟩⟩]
        (some ⟨some ["a"], none, none, none⟩)
        (some ⟨some (8333/25000), none, some ⟨some 0, some 1, some 0, some 0, some 0⟩⟩)
        0 []).2)
    [⟨"a", 3333/10000, ⟨0, 3333/10000, 1/2, 3/5, 1/2⟩⟩]
    (by decide)
    ⟨"a", 3333/10000, ⟨0, 3333/10000, 1/2, 3/5, 1/2⟩⟩
    (by decide)

/-! ## Cache lemmas for the idempotence claim -/

theorem eraseKey_of_lookup_none (k : CacheKey) (c : MatchCache)
    (h : lookupKey k c = none) : eraseKey k c = c := by
  induction c with
  | nil => rfl
  | cons hd rest ih =>
    rcases hd with ⟨k', v⟩
    unfold lookupKey at h
    unfold eraseKey
    by_cases hk : k' = k
    · rw [if_pos hk] at h
      cases h
    · rw [if_neg hk] at h ⊢
      rw [ih h]

theorem lookupKey_append_right (k : CacheKey) (l1 l2 : MatchCache)
    (h : lookupKey k l1 = none) : lookupKey k (l1 ++ l2) = lookupKey k l2 := by
  induction l1 with
  | nil => rfl
  | cons hd rest ih =>
    rcases hd with ⟨k', v⟩
    unfold lookupKey at h
    by_cases hk : k' = k
    · rw [if_pos hk] at h
      cases h
    · rw [if_neg hk] at h
      rw [List.cons_append]
      show (if k' = k then some v else lookupKey k (rest ++ l2)) = lookupKey k l2
      rw [if_neg hk]
      exact ih h

theorem lookupKey_drop_none (k : CacheKey) (c : MatchCache) (d : ℕ)
    (h : lookupKey k c = none) : lookupKey k (c.drop d) = none := by
  induction c generalizing d with
  | nil => simp [lookupKey]
  | cons hd rest ih =>
    rcases hd with ⟨k', v⟩
    unfold lookupKey at h
    by_cases hk : k' = k
    · rw [if_pos hk] at h
      cases h
    · rw [if_neg hk] at h
      cases d with
      | zero =>
        show lookupKey k ((k', v) :: rest) = none
        unfold lookupKey
        rw [if_neg hk]
        exact h
      | succ d' => exact ih d' h

theorem evict_eq_drop (m : ℕ) (l : MatchCache) :
    evictOverCapacity m l = l.drop (l.length - m) := by
  induction l with
  | nil => simp [evictOverCapacity]
  | cons e rest ih =>
    unfold evictOverCapacity
    by_cases h : m < (e :: rest).length
    · rw [if_pos h, ih]
      have hle : m ≤ rest.length := by
        simp only [List.length_cons] at h
        omega
      have : (e :: rest).length - m = (rest.length - m) + 1 := by
        simp only [List.length_cons]
        omega
      rw [this]
      rfl
    · rw [if_neg h]
      have : (e :: rest).length - m = 0 := by
        simp only [List.length_cons] at h ⊢
        omega
      rw [this]
      rfl

/-- After a write of `key`, the key resolves to the fresh entry, provided the
capacity is at least 1 and the key was absent beforehand. -/
theorem lookup_set_cache (cfg : MatcherConfig) (key : CacheKey)
    (v : List MatchResult) (now : ℚ) (c : MatchCache)
    (hmax : 1 ≤ cfg.cache_max_entries) (hlc : lookupKey key c = none) :
    lookupKey key (_set_cache cfg key v now c) = some ⟨v, now + cfg.cache_ttl⟩ := by
  unfold _set_cache
  rw [eraseKey_of_lookup_none key c hlc]
  rw [evict_eq_drop]
  rw [List.drop_append_eq_append_drop]
  have hlen : (c ++ [(key, (⟨v, now + cfg.cache_ttl⟩ : CacheEntry))]).length - 
      cfg.cache_max_entries ≤ c.length := by
    simp only [List.length_append, List.length_cons, List.length_nil]
    omega
  have hzero : (c ++ [(key, (⟨v, now + cfg.cache_ttl⟩ : CacheEntry))]).length -
      cfg.cache_max_entries - c.length = 0 := by
    simp only [List.length_append, List.length_cons, List.length_nil]
    omega
  rw [hzero]
  rw [lookupKey_append_right key _ _ (lookupKey_drop_none key c _ hlc)]
  rw [List.drop_zero]
  simp [lookupKey]

/-! ## Claim C3 — idempotence through the cache -/

/-- Claim C3 (amended): two successive `compute_matches` calls with identical
arguments return identical ordered lists, and the second is answered from
the cache with the stored list, provided the deduplicated job set is
nonempty (else no cache interaction happens at all), the job embeddings are
valid, the capacity is at least 1, the second call falls within the TTL of
the first, and any pre-existing entry under the key either expired before
the first call or survives past the second (a pre-existing entry expiring
between the calls makes the second call recompute instead).  The `fresh`
parameters of the two calls may differ (wall-clock freshness drift): the
second call never evaluates its own. -/
theorem c3_second_call_served_from_cache (cfg : MatcherConfig)
    (cos : Vec → Vec → ℚ) (fresh1 fresh2 : Option String → ℚ) (g : Vec)
    (jobs : List JobEmbeddingPayload) (gm : Option GraduateMetadata)
    (opts : Option MatchOptions) (now1 now2 : ℚ) (cache : MatchCache)
    (hnd : (cache.map Prod.fst).Nodup)
    (hg : g.length = cfg.embedding_dimension)
    (hjobs : ∀ j ∈ _deduplicate_jobs jobs, ∀ e, j.embedding = some e →
      e.length = cfg.embedding_dimension)
    (hne : _deduplicate_jobs jobs ≠ [])
    (hmax : 1 ≤ cfg.cache_max_entries)
    (httl : now2 ≤ now1 + cfg.cache_ttl)
    (hentry : ∀ e, lookupKey (_build_cache_key g (_deduplicate_jobs jobs) gm opts)
      cache = some e → (e.expires_at < now1 ∨ now2 ≤ e.expires_at)) :
    ∃ r b cache1 cache2,
      compute_matches cfg cos fresh1 g jobs gm opts now1 cache = (.ok (r, b), cache1) ∧
      compute_matches cfg cos fresh2 g jobs gm opts now2 cache1 = (.ok (r, true), cache2) := by
  obtain ⟨results, hsc1⟩ := score_jobs_ok_of_valid cfg cos fresh1
    (_prepare_options cfg opts).2.2 (_prepare_options cfg opts).1
    (gm.bind GraduateMetadata.skills) (gm.bind GraduateMetadata.education)
    (gm.bind GraduateMetadata.experience_years) g (_deduplicate_jobs jobs) hg hjobs
  match hl : lookupKey (_build_cache_key g (_deduplicate_jobs jobs) gm opts) cache with
  | none =>
    have hget1 := get_from_cache_none _ now1 cache hl
    have h1 := compute_matches_miss cfg cos fresh1 g jobs gm opts now1 cache cache
      results hg hne hget1 hsc1
    have hlk := lookup_set_cache cfg (_build_cache_key g (_deduplicate_jobs jobs) gm opts)
      (_rank_truncate (_prepare_options cfg opts).2.1 results) now1 cache hmax hl
    have hget2 := get_from_cache_hit _ now2 _ _ hlk (not_lt.mpr httl)
    have h2 := compute_matches_hit cfg cos fresh2 g jobs gm opts now2 _ _ _ hg hne hget2
    exact ⟨_, false, _, _, h1, h2⟩
  | some e =>
    by_cases hexp : e.expires_at < now1
    · have hget1 := get_from_cache_expired _ now1 cache e hl hexp
      have h1 := compute_matches_miss cfg cos fresh1 g jobs gm opts now1 cache
        (eraseKey _ cache) results hg hne hget1 hsc1
      have hnone := lookupKey_eraseKey_of_nodup
        (_build_cache_key g (_deduplicate_jobs jobs) gm opts) cache hnd
      have hlk := lookup_set_cache cfg (_build_cache_key g (_deduplicate_jobs jobs) gm opts)
        (_rank_truncate (_prepare_options cfg opts).2.1 results) now1
        (eraseKey _ cache) hmax hnone
      have hget2 := get_from_cache_hit _ now2 _ _ hlk (not_lt.mpr httl)
      have h2 := compute_matches_hit cfg cos fresh2 g jobs gm opts now2 _ _ _ hg hne hget2
      exact ⟨_, false, _, _, h1, h2⟩
    · have hget1 := get_from_cache_hit _ now1 cache e hl hexp
      have h1 := compute_matches_hit cfg cos fresh1 g jobs gm opts now1 cache _ _ hg hne hget1
      have hl2 : lookupKey (_build_cache_key g (_deduplicate_jobs jobs) gm opts)
          (eraseKey (_build_cache_key g (_deduplicate_jobs jobs) gm opts) cache ++
            [(_build_cache_key g (_deduplicate_jobs jobs) gm opts, e)]) = some e := by
        rw [lookupKey_append_right _ _ _ (lookupKey_eraseKey_of_nodup _ cache hnd)]
        simp [lookupKey]
      have hnow2 : ¬ e.expires_at < now2 := by
        rcases hentry e hl with h | h
        · exact absurd h hexp
        · exact not_lt.mpr h
      have hget2 := get_from_cache_hit _ now2 _ e hl2 hnow2
      have h2 := compute_matches_hit cfg cos fresh2 g jobs gm opts now2 _ _ _ hg hne hget2
      exact ⟨e.value, true, _, _, h1, h2⟩

/-- Claim C3, counterexample: with an empty job list both calls succeed with
the empty list, but the second call is *not* answered from the cache (the
served-from-cache flag of both calls is `false`): the early return at line
315 precedes every cache interaction, so no entry is ever stored. -/
theorem c3_counterexample :
    compute_matches ⟨1, 300, 1024, 3/10, 50, ⟨3/5, 1/5, 1/10, 1/20, 1/20⟩⟩
      (fun _ _ => 0) (fun _ => 1/2) [1] [] none none 0 [] = (.ok ([], false), []) ∧
    compute_matches ⟨1, 300, 1024, 3/10, 50, ⟨3/5, 1/5, 1/10, 1/20, 1/20⟩⟩
      (fun _ _ => 0) (fun _ => 1/2) [1] [] none none 1 [] = (.ok ([], false), []) :=
  ⟨by decide, by decide⟩

/-- Witness for C3 (amended): a fresh cache, one valid job, two calls at
times 0 and 1 with a TTL of 300. -/
theorem c3_second_call_witness :
    ∃ r b cache1 cache2,
      compute_matches ⟨1, 300, 1024, 3/10, 50, ⟨3/5, 1/5, 1/10, 1/20, 1/20⟩⟩
        (fun _ _ => 0) (fun _ => 1/2) [1] [⟨some "a", some [1], none⟩]
        none none 0 [] = (.ok (r, b), cache1) ∧
      compute_matches ⟨1, 300, 1024, 3/10, 50, ⟨3/5, 1/5, 1/10, 1/20, 1/20⟩⟩
        (fun _ _ => 0) (fun _ => 1/2) [1] [⟨some "a", some [1], none⟩]
        none none 1 cache1 = (.ok (r, true), cache2) :=
  c3_second_call_served_from_cache ⟨1, 300, 1024, 3/10, 50, ⟨3/5, 1/5, 1/10, 1/20, 1/20⟩⟩
    (fun _ _ => 0) (fun _ => 1/2) (fun _ => 1/2) [1] [⟨some "a", some [1], none⟩]
    none none 0 1 [] (by decide) (by decide) (by decide) (by decide) (by decide)
    (by decide) (by decide)
